import Mathlib

/-!
# A shallow embedding of the double-entry ledger engine

This file formalises the accounting engine of the repository (journal
posting and voiding, the chart-of-accounts hierarchy validator, and the
balance / reporting aggregators) and proves or refutes the specification
claims about it.

Modelling conventions:
* Money amounts are rationals (`ℚ`); the engine's 2-decimal rounding
  `Math.round((x + ε) * 100) / 100` is modelled exactly on rationals as
  `jround` (round half towards +∞ at the second decimal).
* The document store is a record of three lists (accounts, journals,
  ledger entries) plus a fresh-id counter standing for ObjectId creation.
* Timestamps are integers (milliseconds); the optional "current time"
  defaults used by the source are supplied by callers in the model.
* JavaScript truthiness of optional strings (`undefined`, `null` and
  `""` are falsy) is modelled by `strTruthy`.
* Thrown errors become `Except Err`; mutating operations return the
  (possibly unchanged) store together with the outcome.
-/

namespace AccEngine

/-- Models 2-decimal rounding: the engine's `round` helper
(`Math.round((num + Number.EPSILON) * 100) / 100`), modelled exactly on
rationals: round half towards +∞ at the second decimal place. -/
def jround (q : ℚ) : ℚ := ((⌊q * 100 + 1/2⌋ : ℤ) : ℚ) / 100

/-- A rational is representable in whole cents (a 2-decimal fixed-point value). -/
def IsCents (q : ℚ) : Prop := ∃ n : ℤ, q = (n : ℚ) / 100

inductive AccountType
  | asset
  | liability
  | equity
  | income
  | expense
  | contra
  deriving DecidableEq

inductive ParentGroup
  | asset
  | liability
  | equity
  | income
  | expense
  deriving DecidableEq

/-- An account of the chart of accounts (collection `acct_accounts`). -/
structure Account where
  key : String
  code : String
  name : String
  ty : AccountType
  parentGroup : ParentGroup
  group : String
  isActive : Bool
  parentAccountKey : Option String
  deriving DecidableEq

/-- A journal record (collection `acct_journals`). -/
structure Journal where
  id : Nat
  memo : String
  datetime : Int
  referenceType : Option String
  referenceId : Option String
  voided : Bool
  voidReason : Option String
  deriving DecidableEq

/-- A ledger line (collection `acct_transactions`). -/
structure Entry where
  id : Nat
  journalId : Nat
  accountKey : String
  accountCode : String
  debit : ℚ
  credit : ℚ
  meta : List (String × String)
  datetime : Int
  voided : Bool
  deriving DecidableEq

/-- The persistent store: the three collections plus a fresh-id counter
standing for ObjectId generation (ids grow in insertion order). -/
structure DB where
  accounts : List Account
  journals : List Journal
  entries : List Entry
  nextId : Nat
  deriving DecidableEq

/-- The error taxonomy of `src/errors.ts`; `plain` is a bare `Error`. -/
inductive Err
  | validation (msg : String)
  | accountNotFound (msg : String)
  | doubleEntry (msg : String)
  | plain (msg : String)
  deriving DecidableEq

def Err.isValidation : Err → Bool
  | .validation _ => true
  | _ => false

def Err.isAccountNotFound : Err → Bool
  | .accountNotFound _ => true
  | _ => false

def Err.isDoubleEntry : Err → Bool
  | .doubleEntry _ => true
  | _ => false

def Err.isPlain : Err → Bool
  | .plain _ => true
  | _ => false

/-- JavaScript truthiness of an optional string: `undefined`/`null` and
the empty string are falsy. -/
def strTruthy : Option String → Bool
  | none => false
  | some s => decide (s ≠ "")

/-- Implements `findOne({key})`: first record with the given key. -/
def findAccount (accounts : List Account) (k : String) : Option Account :=
  accounts.find? (fun a => decide (a.key = k))

/-- Lookup through a JS `Map` built by successive `set` calls: the last
record with the given key wins. -/
def findAccountMap (accounts : List Account) (k : String) : Option Account :=
  accounts.foldl (fun acc a => if a.key = k then some a else acc) none

/-- Implements `isDebitNormal`: the balance of an account grows with debits when its
parent group is asset or expense, or when it is a contra account attached
to the liability group. -/
def isDebitNormal (ty : AccountType) (pg : ParentGroup) : Bool :=
  decide (pg = .asset) || decide (pg = .expense) ||
    (decide (ty = .contra) && decide (pg = .liability))

/-- Implements `getNetBalance`: signed normal balance from raw debit/credit sums. -/
def getNetBalance (debit credit : ℚ) (ty : AccountType) (pg : ParentGroup) : ℚ :=
  if isDebitNormal ty pg then jround (debit - credit) else jround (credit - debit)

/-! ## Journal posting engine (`src/index.mjs`, `postJournal` / `voidJournal`) -/

/-- One line of a `postJournal` request (`TransactionLineInput`). -/
structure LineInput where
  accountKey : String
  debit : Option ℚ
  credit : Option ℚ
  meta : List (String × String)
  deriving DecidableEq

def lineDebit (l : LineInput) : ℚ := l.debit.getD 0

def lineCredit (l : LineInput) : ℚ := l.credit.getD 0

/-- A `postJournal` request (`PostJournalInput`); `memo` and `datetime`
are optional here because the source guards their absence at runtime. -/
structure PostJournalInput where
  memo : Option String
  datetime : Option Int
  referenceType : Option String
  referenceId : Option String
  lines : List LineInput
  deriving DecidableEq

structure PostResult where
  journal : Journal
  transactions : List Entry
  deriving DecidableEq

/-- The per-line validation loop of `postJournal`: with `debit || 0` and
`credit || 0`, reject negative amounts, both-zero lines and
both-non-zero lines, accumulating the running debit/credit totals. -/
def processLines : List LineInput → ℚ → ℚ → Except Err (ℚ × ℚ)
  | [], td, tc => .ok (td, tc)
  | l :: ls, td, tc =>
    let d := lineDebit l
    let c := lineCredit l
    if d < 0 ∨ c < 0 then .error (.validation "Amounts cannot be negative")
    else if d = 0 ∧ c = 0 then
      .error (.validation "Line must have a non-zero debit or credit")
    else if 0 < d ∧ 0 < c then
      .error (.validation "Line cannot have both debit and credit")
    else processLines ls (td + d) (tc + c)

/-- Implements `postJournal`: validate shape, lines and balance, resolve the
referenced accounts, then persist one journal and its entries. -/
def postJournal (data : PostJournalInput) (db : DB) : DB × Except Err PostResult :=
  if data.lines.length < 2 then
    (db, .error (.validation "Journal must have at least two lines"))
  else if data.datetime.isNone then
    (db, .error (.validation "Date is required"))
  else if !(strTruthy data.memo) then
    (db, .error (.validation "Memo is required"))
  else
    match processLines data.lines 0 0 with
    | .error e => (db, .error e)
    | .ok (td, tc) =>
      if jround td ≠ jround tc then
        (db, .error (.doubleEntry "Journal is not balanced"))
      else
        let keys := (data.lines.map (·.accountKey)).dedup
        let missing := keys.filter (fun k => (findAccountMap db.accounts k).isNone)
        if !missing.isEmpty then
          (db, .error (.accountNotFound "Account not found"))
        else
          let fetched := db.accounts.filter (fun a => keys.contains a.key)
          if fetched.any (fun a => !a.isActive) then
            (db, .error (.validation "Cannot post to inactive accounts"))
          else
            let jid := db.nextId
            let journalDoc : Journal :=
              { id := jid, memo := data.memo.getD "", datetime := data.datetime.getD 0,
                referenceType := data.referenceType, referenceId := data.referenceId,
                voided := false, voidReason := none }
            let txs : List Entry := data.lines.enum.map (fun p =>
              { id := db.nextId + 1 + p.1, journalId := jid,
                accountKey := p.2.accountKey,
                accountCode := ((findAccountMap db.accounts p.2.accountKey).map (·.code)).getD "",
                debit := lineDebit p.2, credit := lineCredit p.2,
                meta := p.2.meta, datetime := data.datetime.getD 0, voided := false })
            ({ db with journals := db.journals ++ [journalDoc],
                       entries := db.entries ++ txs,
                       nextId := db.nextId + 1 + data.lines.length },
             .ok { journal := journalDoc, transactions := txs })

/-- Implements `findOneAndUpdate({_id, voided:false}, {$set ...})`: void the first
journal matching id and not yet voided; `none` when nothing matched. -/
def voidJournalUpd (id : Nat) (reason : String) : List Journal → Option (List Journal)
  | [] => none
  | j :: js =>
    if j.id = id ∧ j.voided = false then
      some ({ j with voided := true, voidReason := some reason } :: js)
    else
      match voidJournalUpd id reason js with
      | none => none
      | some js' => some (j :: js')

/-- Implements `voidJournal`: conditionally void one journal, then cascade
`voided = true` to every entry of that journal. -/
def voidJournal (id : Nat) (reason : String) (db : DB) : DB × Except Err Bool :=
  match voidJournalUpd id reason db.journals with
  | none => (db, .error (.validation "Journal not found or already voided"))
  | some js' =>
    ({ db with journals := js',
               entries := db.entries.map (fun e =>
                 if e.journalId = id then { e with voided := true } else e) },
     .ok true)

/-! ## Account hierarchy manager (`src/index.mjs`, accounts module) -/

/-- Whitespace as skipped by JavaScript `parseInt`. -/
def jsWhitespace (c : Char) : Bool :=
  decide (c = ' ') || decide (c = '\t') || decide (c = '\n') || decide (c = '\r')

/-- Tests `isNaN(parseInt(s, 10))`: after optional leading whitespace and an
optional sign, `parseInt` is NaN exactly when no decimal digit follows. -/
def parseIntNaN (s : String) : Bool :=
  let t := s.toList.dropWhile jsWhitespace
  let t2 :=
    match t with
    | '+' :: r => r
    | '-' :: r => r
    | r => r
  match t2 with
  | [] => true
  | c :: _ => !c.isDigit

/-- A `createAccount` request (`CreateAccountInput`); enum fields are
optional because the source guards their absence at runtime. -/
structure CreateAccountInput where
  key : String
  code : String
  name : String
  ty : Option AccountType
  parentGroup : Option ParentGroup
  group : String
  parentAccountKey : Option String
  deriving DecidableEq

/-- Implements `validateAccountStructure`: required fields (JS truthiness), numeric
code (via `parseInt`), and the type/parentGroup consistency table.  The
code-prefix conditionals of the source are empty statements and have no
effect, so they do not appear here. -/
def validateAccountStructure (d : CreateAccountInput) : Except Err Unit :=
  if d.key = "" ∨ d.code = "" ∨ d.name = "" ∨ d.ty = none ∨
      d.parentGroup = none ∨ d.group = "" then
    .error (.validation "Missing required account fields")
  else if parseIntNaN d.code then
    .error (.validation "Account code must be numeric string")
  else if d.ty = some .asset ∧ d.parentGroup ≠ some .asset then
    .error (.validation "Asset type must have asset parentGroup")
  else if d.ty = some .liability ∧ d.parentGroup ≠ some .liability then
    .error (.validation "Liability type must have liability parentGroup")
  else if d.ty = some .equity ∧ d.parentGroup ≠ some .equity then
    .error (.validation "Equity type must have equity parentGroup")
  else if d.ty = some .income ∧ d.parentGroup ≠ some .income then
    .error (.validation "Income type must have income parentGroup")
  else if d.ty = some .expense ∧ d.parentGroup ≠ some .expense then
    .error (.validation "Expense type must have expense parentGroup")
  else if d.ty = some .contra ∧
      ¬(d.parentGroup = some .asset ∨ d.parentGroup = some .liability) then
    .error (.validation "Contra accounts must belong to asset or liability parentGroup")
  else .ok ()

/-- Implements `createAccount`: validate the structure, check the optional parent
exists, reject duplicate key or code, then persist with
`isActive = true` (and `parentAccountKey || null`). -/
def createAccount (d : CreateAccountInput) (db : DB) : DB × Except Err Account :=
  match validateAccountStructure d with
  | .error e => (db, .error e)
  | .ok _ =>
    if strTruthy d.parentAccountKey ∧
        (findAccount db.accounts (d.parentAccountKey.getD "")).isNone then
      (db, .error (.validation "Parent account not found"))
    else if (db.accounts.find?
        (fun a => decide (a.key = d.key) || decide (a.code = d.code))).isSome then
      (db, .error (.validation "Account with key or code already exists"))
    else
      let doc : Account :=
        { key := d.key, code := d.code, name := d.name,
          ty := d.ty.getD .asset, parentGroup := d.parentGroup.getD .asset,
          group := d.group, isActive := true,
          parentAccountKey := if strTruthy d.parentAccountKey then d.parentAccountKey else none }
      ({ db with accounts := db.accounts ++ [doc] }, .ok doc)

/-- The ancestor-chain walk of `validateParent`, one call per loop
iteration.  `visited` starts at `[parentKey]`; the fuel models the
`depth > 100` cap (initial fuel 100 allows 101 examined keys).
Returns `false` exactly when the walk reaches the candidate key. -/
def vpGo (accounts : List Account) (accountKey : String) :
    List String → Option String → Nat → Bool
  | _, none, _ => true
  | visited, some c, fuel =>
    if c = "" then true
    else if c = accountKey then false
    else if c ∈ visited then true
    else
      match findAccount accounts c with
      | none => true
      | some node =>
        match fuel with
        | 0 => true
        | f + 1 => vpGo accounts accountKey (c :: visited) node.parentAccountKey f

/-- Implements `validateParent`: no-op on a falsy parent key; reject a self parent;
reject a missing parent; otherwise walk the ancestor chain. -/
def validateParent (accounts : List Account) (accountKey : String)
    (parentKey : Option String) : Except Err Unit :=
  if strTruthy parentKey = false then .ok ()
  else
    let p := parentKey.getD ""
    if accountKey = p then .error (.validation "Account cannot be its own parent")
    else
      match findAccount accounts p with
      | none => .error (.validation "Parent account not found")
      | some parent =>
        if vpGo accounts accountKey [p] parent.parentAccountKey 100 then .ok ()
        else .error (.validation "Circular dependency detected")

/-- An `updateAccount` request; the outer `Option` on `parentAccountKey`
distinguishes an absent field from an explicit `null` (`none`). -/
structure UpdateAccountInput where
  key : String
  name : Option String
  group : Option String
  isActive : Option Bool
  extra : Option (List (String × String))
  parentAccountKey : Option (Option String)
  deriving DecidableEq

/-- Implements `findOneAndUpdate({key}, {$set ...})`: update the first account with
the given key; `none` when nothing matched. -/
def updateFirstAccount (key : String) (f : Account → Account) :
    List Account → Option (List Account)
  | [] => none
  | a :: rest =>
    if a.key = key then some (f a :: rest)
    else (updateFirstAccount key f rest).map (a :: ·)

/-- Implements `updateAccount`: partial update; reassigning `parentAccountKey`
first runs `validateParent`; a missing key is `AccountNotFoundError`. -/
def updateAccount (d : UpdateAccountInput) (db : DB) : DB × Except Err Account :=
  if d.key = "" then (db, .error (.validation "Account key is required for update"))
  else
    let pv : Except Err Unit :=
      match d.parentAccountKey with
      | none => .ok ()
      | some pk => validateParent db.accounts d.key pk
    match pv with
    | .error e => (db, .error e)
    | .ok _ =>
      let f : Account → Account := fun a =>
        { a with name := d.name.getD a.name, group := d.group.getD a.group,
                 isActive := d.isActive.getD a.isActive,
                 parentAccountKey :=
                   match d.parentAccountKey with
                   | none => a.parentAccountKey
                   | some pk => pk }
      match findAccount db.accounts d.key with
      | none => (db, .error (.accountNotFound "Account not found"))
      | some a =>
        ({ db with accounts := (updateFirstAccount d.key f db.accounts).getD db.accounts },
         .ok (f a))

/-! ## Balance and reporting aggregator (`src/reports/index.ts`) -/

/-- Query shape shared by `getAccountBalance`. -/
structure BalanceQuery where
  accountKey : String
  fromD : Option Int
  toD : Option Int
  metaFilter : Option (List (String × String))
  deriving DecidableEq

/-- Mongo equality filters `meta.k = v` over the entry metadata. -/
def metaMatch (meta : List (String × String)) (filt : List (String × String)) : Bool :=
  filt.all (fun kv => decide (meta.lookup kv.1 = some kv.2))

/-- The `$match` stage of `getAccountBalance` / `getAccountLedger`:
account key, `voided: false`, the optional datetime range and the
optional metadata filters. -/
def entryMatches (q : BalanceQuery) (e : Entry) : Bool :=
  decide (e.accountKey = q.accountKey) && (e.voided == false) &&
    (match q.fromD with | none => true | some f => decide (f ≤ e.datetime)) &&
    (match q.toD with | none => true | some t => decide (e.datetime ≤ t)) &&
    (match q.metaFilter with | none => true | some mf => metaMatch e.meta mf)

structure BalanceResult where
  balance : ℚ
  debit : ℚ
  credit : ℚ
  deriving DecidableEq

/-- Implements `getAccountBalance`: sum debit/credit over the matching non-voided
entries; an empty match is `{0,0,0}` with no account lookup at all; a
non-empty match with a missing account record throws a plain `Error`. -/
def getAccountBalance (q : BalanceQuery) (db : DB) : Except Err BalanceResult :=
  let matched := db.entries.filter (entryMatches q)
  if matched.isEmpty then .ok { balance := 0, debit := 0, credit := 0 }
  else
    let d := (matched.map (·.debit)).sum
    let c := (matched.map (·.credit)).sum
    match findAccount db.accounts q.accountKey with
    | none => .error (.plain "Account not found")
    | some a =>
      .ok { balance := getNetBalance d c a.ty a.parentGroup,
            debit := jround d, credit := jround c }

structure LedgerQuery where
  accountKey : String
  fromD : Option Int
  toD : Option Int
  metaFilter : Option (List (String × String))
  page : Option Nat
  pageSize : Option Nat
  deriving DecidableEq

/-- JS `x || d` on an optional number: `0` is falsy. -/
def orDefault : Option Nat → Nat → Nat
  | none, d => d
  | some 0, d => d
  | some n, _ => n

structure LedgerItem where
  entry : Entry
  runningBalance : ℚ
  deriving DecidableEq

structure LedgerResult where
  items : List LedgerItem
  total : Nat
  page : Nat
  pageSize : Nat
  deriving DecidableEq

/-- The Mongo sort key `{datetime: 1, _id: 1}` of the ledger query:
business time ascending, insertion order (`_id`) as tie-break. -/
def entryLE (a b : Entry) : Prop :=
  a.datetime < b.datetime ∨ (a.datetime = b.datetime ∧ a.id ≤ b.id)

instance : DecidableRel entryLE := fun a b => by
  unfold entryLE
  infer_instance

/-- The running-balance annotation loop of `getAccountLedger`:
`balance := round(balance + netChange(entry))` down the page. -/
def ledgerAnnotate (ty : AccountType) (pg : ParentGroup) (bal : ℚ) :
    List Entry → List LedgerItem
  | [] => []
  | e :: es =>
    let nb := jround (bal + getNetBalance e.debit e.credit ty pg)
    { entry := e, runningBalance := nb } :: ledgerAnnotate ty pg nb es

/-- Implements `getAccountLedger`: opening balance strictly before `from` (via
`getAccountBalance` with `to = from − 1ms`), then a time-ordered
paginated page of matching entries annotated with running balances. -/
def getAccountLedger (q : LedgerQuery) (db : DB) : Except Err LedgerResult :=
  let page := orDefault q.page 1
  let pageSize := orDefault q.pageSize 50
  let skip := (page - 1) * pageSize
  let openingE : Except Err ℚ :=
    match q.fromD with
    | none => .ok 0
    | some f =>
      (getAccountBalance { accountKey := q.accountKey, fromD := none,
                           toD := some (f - 1), metaFilter := q.metaFilter } db).map
        (·.balance)
  match openingE with
  | .error e => .error e
  | .ok opening =>
    let bq : BalanceQuery :=
      { accountKey := q.accountKey, fromD := q.fromD, toD := q.toD,
        metaFilter := q.metaFilter }
    let matched := db.entries.filter (entryMatches bq)
    let sorted := matched.insertionSort entryLE
    let items := (sorted.drop skip).take pageSize
    match findAccount db.accounts q.accountKey with
    | none => .error (.plain "Account not found")
    | some a =>
      .ok { items := ledgerAnnotate a.ty a.parentGroup opening items,
            total := matched.length, page := page, pageSize := pageSize }

structure TrialBalanceQuery where
  fromD : Option Int
  toD : Option Int
  deriving DecidableEq

structure TrialBalanceLine where
  accountKey : String
  accountCode : String
  accountName : String
  debit : ℚ
  credit : ℚ
  balance : ℚ
  deriving DecidableEq

structure TrialBalanceResult where
  lines : List TrialBalanceLine
  totalDebit : ℚ
  totalCredit : ℚ
  deriving DecidableEq

/-- The `$match` stage of `getTrialBalance`: non-voided entries in the
optional datetime range. -/
def tbMatches (q : TrialBalanceQuery) (e : Entry) : Bool :=
  (e.voided == false) &&
    (match q.fromD with | none => true | some f => decide (f ≤ e.datetime)) &&
    (match q.toD with | none => true | some t => decide (e.datetime ≤ t))

/-- Raw debit sum of the entries of one grouped account key. -/
def sumDebitFor (l : List Entry) (k : String) : ℚ :=
  ((l.filter (fun e => decide (e.accountKey = k))).map (·.debit)).sum

/-- Raw credit sum of the entries of one grouped account key. -/
def sumCreditFor (l : List Entry) (k : String) : ℚ :=
  ((l.filter (fun e => decide (e.accountKey = k))).map (·.credit)).sum

/-- One grouped line of the trial balance: rounded debit/credit sums of
one account key, skipped (`continue`) when no account record exists. -/
def tbRow (db : DB) (matched : List Entry) (k : String) : Option TrialBalanceLine :=
  match findAccountMap db.accounts k with
  | none => none
  | some a =>
    let d := jround (sumDebitFor matched k)
    let c := jround (sumCreditFor matched k)
    some { accountKey := k, accountCode := a.code, accountName := a.name,
           debit := d, credit := c, balance := getNetBalance d c a.ty a.parentGroup }

/-- Implements `getTrialBalance`: group the matching entries by account, round each
account's debit/credit sums, skip keys with no account record, sort the
lines by account code, and return the rounded grand totals. -/
def getTrialBalance (q : TrialBalanceQuery) (db : DB) : TrialBalanceResult :=
  let matched := db.entries.filter (tbMatches q)
  let keys := (matched.map (·.accountKey)).dedup
  let rows : List TrialBalanceLine := keys.filterMap (tbRow db matched)
  { lines := rows.insertionSort (fun x y => x.accountCode ≤ y.accountCode),
    totalDebit := jround ((rows.map (·.debit)).sum),
    totalCredit := jround ((rows.map (·.credit)).sum) }

/-- Computes `group || "General"` of the breakdown labels. -/
def groupLabel (a : Account) : String := if a.group = "" then "General" else a.group

/-- Performs `m[k] = round((m[k] || 0) + v)` on a breakdown record. -/
def setBreakdown (m : List (String × ℚ)) (k : String) (v : ℚ) : List (String × ℚ) :=
  let newV := jround ((m.lookup k).getD 0 + v)
  match m.lookup k with
  | some _ => m.map (fun kv => if kv.1 = k then (kv.1, newV) else kv)
  | none => m ++ [(k, newV)]

/-- The running accumulator of the `getBalanceSheet` loop. -/
structure BSAcc where
  assetsB : List (String × ℚ)
  liabB : List (String × ℚ)
  equityB : List (String × ℚ)
  totalAssets : ℚ
  totalLiab : ℚ
  totalEquity : ℚ
  netIncome : ℚ
  deriving DecidableEq

/-- One grouped row of the `getBalanceSheet` loop: classify the
account's signed net balance by parent group (income and expense flow
into net income; a key with no account record is skipped). -/
def bsStep (db : DB) (matched : List Entry) (acc : BSAcc) (k : String) : BSAcc :=
  match findAccountMap db.accounts k with
  | none => acc
  | some a =>
    let net := getNetBalance (sumDebitFor matched k) (sumCreditFor matched k) a.ty a.parentGroup
    let g := groupLabel a
    match a.parentGroup with
    | .asset =>
      { acc with assetsB := setBreakdown acc.assetsB g net,
                 totalAssets := acc.totalAssets + net }
    | .liability =>
      { acc with liabB := setBreakdown acc.liabB g net,
                 totalLiab := acc.totalLiab + net }
    | .equity =>
      { acc with equityB := setBreakdown acc.equityB g net,
                 totalEquity := acc.totalEquity + net }
    | .income => { acc with netIncome := acc.netIncome + net }
    | .expense => { acc with netIncome := acc.netIncome - net }

structure BalanceSheetResult where
  assets : ℚ
  liabilities : ℚ
  equity : ℚ
  assetsB : List (String × ℚ)
  liabilitiesB : List (String × ℚ)
  equityB : List (String × ℚ)
  deriving DecidableEq

/-- Implements `getBalanceSheet`: net all non-voided entries up to `asOf` by
account parent group, fold net income (income − expense) into the equity
total as a calculated retained-earnings line, round the three totals. -/
def getBalanceSheet (asOf : Int) (db : DB) : BalanceSheetResult :=
  let matched := db.entries.filter (fun e =>
    (e.voided == false) && decide (e.datetime ≤ asOf))
  let keys := (matched.map (·.accountKey)).dedup
  let acc := keys.foldl (bsStep db matched)
    { assetsB := [], liabB := [], equityB := [],
      totalAssets := 0, totalLiab := 0, totalEquity := 0, netIncome := 0 }
  { assets := jround acc.totalAssets,
    liabilities := jround acc.totalLiab,
    equity := jround (acc.totalEquity + acc.netIncome),
    assetsB := acc.assetsB, liabilitiesB := acc.liabB,
    equityB := setBreakdown acc.equityB "Retained Earnings (Calc)" acc.netIncome }

/-! ## Opening-balance orchestrator (`src/index.mjs`, `applyOpeningBalance`) -/

def OPENING_BALANCE_REFERENCE_TYPE : String := "opening_balance"

def DEFAULT_OPENING_BALANCE_ACCOUNT : Account :=
  { key := "OPENING_BALANCE_EQUITY", code := "3999", name := "Opening Balance Equity",
    ty := .equity, parentGroup := .equity, group := "Opening Balance",
    isActive := true, parentAccountKey := none }

structure OpeningBalanceInput where
  accountKey : String
  amount : ℚ
  datetime : Option Int
  memo : Option String
  offsetAccountKey : Option String
  meta : List (String × String)
  deriving DecidableEq

/-- Implements `ensureOpeningBalanceOffsetAccount`: look up the explicit offset key
(failing if absent), or lazily create the default system account. -/
def ensureOpeningBalanceOffsetAccount (offsetKey : Option String) (db : DB) :
    DB × Except Err Account :=
  let lookupKey :=
    if strTruthy offsetKey then offsetKey.getD "" else DEFAULT_OPENING_BALANCE_ACCOUNT.key
  match findAccount db.accounts lookupKey with
  | some a => (db, .ok a)
  | none =>
    if strTruthy offsetKey then (db, .error (.validation "Offset account not found"))
    else
      ({ db with accounts := db.accounts ++ [DEFAULT_OPENING_BALANCE_ACCOUNT] },
       .ok DEFAULT_OPENING_BALANCE_ACCOUNT)

/-- Implements `voidExistingOpeningBalance`: void the first active opening-balance
journal referencing the account, if any. -/
def voidExistingOpeningBalance (accountKey : String) (db : DB) : DB × Except Err Unit :=
  match db.journals.find? (fun j =>
      decide (j.referenceType = some OPENING_BALANCE_REFERENCE_TYPE) &&
      decide (j.referenceId = some accountKey) && (j.voided == false)) with
  | none => (db, .ok ())
  | some j =>
    let r := voidJournal j.id "Updated opening balance" db
    (r.1, r.2.map (fun _ => ()))

/-- Implements `applyOpeningBalance`: void any prior opening balance, stop on a
rounded-to-zero amount, otherwise resolve the offset account, split the
signed amount by normal-balance polarity and post a 2-line journal
referenced `(opening_balance, accountKey)`.  The source defaults
`datetime` to the current time; the model defaults to `0`. -/
def applyOpeningBalance (d : OpeningBalanceInput) (db : DB) :
    DB × Except Err (Option PostResult) :=
  match findAccount db.accounts d.accountKey with
  | none => (db, .error (.accountNotFound "Account not found"))
  | some account =>
    if account.isActive = false then
      (db, .error (.validation "Cannot set opening balance on inactive accounts"))
    else
      match voidExistingOpeningBalance d.accountKey db with
      | (db1, .error e) => (db1, .error e)
      | (db1, .ok _) =>
        let amount := jround d.amount
        if amount = 0 then (db1, .ok none)
        else
          match ensureOpeningBalanceOffsetAccount d.offsetAccountKey db1 with
          | (db2, .error e) => (db2, .error e)
          | (db2, .ok offsetAccount) =>
            let debitNormal := isDebitNormal account.ty account.parentGroup
            let absAmount := |amount|
            let accountDebit :=
              if 0 < amount then (if debitNormal then absAmount else 0)
              else (if debitNormal then 0 else absAmount)
            let accountCredit :=
              if 0 < amount then (if debitNormal then 0 else absAmount)
              else (if debitNormal then absAmount else 0)
            let memo :=
              if strTruthy d.memo then d.memo.getD ""
              else "Opening balance for " ++ account.name
            let r := postJournal
              { memo := some memo, datetime := some (d.datetime.getD 0),
                referenceType := some OPENING_BALANCE_REFERENCE_TYPE,
                referenceId := some account.key,
                lines :=
                  [{ accountKey := account.key, debit := some (jround accountDebit),
                     credit := some (jround accountCredit), meta := d.meta },
                   { accountKey := offsetAccount.key, debit := some (jround accountCredit),
                     credit := some (jround accountDebit),
                     meta := ("offsetFor", account.key) :: d.meta }] } db2
            (r.1, r.2.map some)

/-! ## Bulk voiding (`voidJournalsByIdentifier`) -/

structure VoidIdentifier where
  journalId : Option Nat
  referenceType : Option String
  referenceId : Option String
  deriving DecidableEq

structure VoidCounts where
  journalsVoided : Nat
  transactionsVoided : Nat
  deriving DecidableEq

/-- The journal selector of `voidJournalsByIdentifier`: by journal id
when given, else by the `(referenceType, referenceId)` pair; only
not-yet-voided journals are voided (and counted). -/
def voidIdentMatches (ident : VoidIdentifier) (j : Journal) : Bool :=
  (match ident.journalId with
   | some i => j.id == i
   | none =>
     decide (j.referenceType = ident.referenceType) &&
     decide (j.referenceId = ident.referenceId)) &&
  (j.voided == false)

/-- Modelled from the spec: `voidJournalsByIdentifier` is declared in
the package's type declarations but its implementation is not among the
source files.  Per the spec it bulk-voids the journals selected by
`journalId` or by the `(referenceType, referenceId)` pair, cascades
`voided = true` to the entries of those journals, and reports counts of
journals and entries voided; voiding zero matches is not an error. -/
def voidJournalsByIdentifier (ident : VoidIdentifier) (reason : String) (db : DB) :
    DB × Except Err VoidCounts :=
  let targets := db.journals.filter (voidIdentMatches ident)
  let targetIds := targets.map (·.id)
  let txs := db.entries.filter (fun e => targetIds.contains e.journalId)
  ({ db with
     journals := db.journals.map (fun j =>
       if voidIdentMatches ident j then { j with voided := true, voidReason := some reason }
       else j),
     entries := db.entries.map (fun e =>
       if targetIds.contains e.journalId then { e with voided := true } else e) },
   .ok { journalsVoided := targets.length, transactionsVoided := txs.length })

/-! ## Arithmetic lemmas about 2-decimal rounding -/

def c10DB : DB :=
  { accounts := [],
    journals := [],
    entries := [{ id := 1, journalId := 0, accountKey := "X", accountCode := "",
                  debit := 5, credit := 0, meta := [], datetime := 0, voided := false }],
    nextId := 2 }

/-- Marking of a voided journal by `voidJournal`. -/
def markVoided (reason : String) (j : Journal) : Journal :=
  { j with voided := true, voidReason := some reason }

def c4DB : DB :=
  { accounts := [],
    journals :=
      [{ id := 1, memo := "m1", datetime := 0, referenceType := none, referenceId := none,
         voided := false, voidReason := none },
       { id := 2, memo := "m2", datetime := 0, referenceType := none, referenceId := none,
         voided := true, voidReason := some "old" }],
    entries := [{ id := 3, journalId := 1, accountKey := "A", accountCode := "1",
                  debit := 5, credit := 0, meta := [], datetime := 0, voided := false }],
    nextId := 4 }

def c9DB : DB :=
  { accounts := [],
    journals :=
      [{ id := 1, memo := "ob", datetime := 0, referenceType := some "opening_balance",
         referenceId := some "CASH", voided := false, voidReason := none },
       { id := 2, memo := "other", datetime := 0, referenceType := none,
         referenceId := none, voided := false, voidReason := none }],
    entries :=
      [{ id := 3, journalId := 1, accountKey := "CASH", accountCode := "1",
         debit := 5, credit := 0, meta := [], datetime := 0, voided := false },
       { id := 4, journalId := 2, accountKey := "CASH", accountCode := "1",
         debit := 0, credit := 5, meta := [], datetime := 0, voided := false }],
    nextId := 5 }

def c9Ident : VoidIdentifier :=
  { journalId := none, referenceType := some "opening_balance", referenceId := some "CASH" }

def c9IdentNone : VoidIdentifier :=
  { journalId := some 99, referenceType := none, referenceId := none }

/-- The type/parentGroup consistency table of `validateAccountStructure`. -/
def typeParentMismatch (d : CreateAccountInput) : Prop :=
  (d.ty = some .asset ∧ d.parentGroup ≠ some .asset) ∨
  (d.ty = some .liability ∧ d.parentGroup ≠ some .liability) ∨
  (d.ty = some .equity ∧ d.parentGroup ≠ some .equity) ∨
  (d.ty = some .income ∧ d.parentGroup ≠ some .income) ∨
  (d.ty = some .expense ∧ d.parentGroup ≠ some .expense) ∨
  (d.ty = some .contra ∧ ¬(d.parentGroup = some .asset ∨ d.parentGroup = some .liability))

/-- A required-field set of `createAccount` is missing (JS truthiness). -/
def missingAccountField (d : CreateAccountInput) : Prop :=
  d.key = "" ∨ d.code = "" ∨ d.name = "" ∨ d.ty = none ∨ d.parentGroup = none ∨ d.group = ""

def c6Input : CreateAccountInput :=
  { key := "K1", code := "12abc", name := "Name", ty := some .asset,
    parentGroup := some .asset, group := "G", parentAccountKey := none }

def c6DB : DB := { accounts := [], journals := [], entries := [], nextId := 0 }

def c6InMissing : CreateAccountInput :=
  { key := "", code := "1", name := "N", ty := some .asset,
    parentGroup := some .asset, group := "G", parentAccountKey := none }

def c6InBadCode : CreateAccountInput :=
  { key := "K", code := "x", name := "N", ty := some .asset,
    parentGroup := some .asset, group := "G", parentAccountKey := none }

def c6InMismatch : CreateAccountInput :=
  { key := "K", code := "1", name := "N", ty := some .contra,
    parentGroup := some .equity, group := "G", parentAccountKey := none }

def c6InNoParent : CreateAccountInput :=
  { key := "K", code := "1", name := "N", ty := some .asset,
    parentGroup := some .asset, group := "G", parentAccountKey := some "NOPE" }

/-- A request line that the per-line validation of `postJournal` rejects
(after the `|| 0` defaulting of absent sides). -/
def lineBad (l : LineInput) : Prop :=
  lineDebit l < 0 ∨ lineCredit l < 0 ∨
    (lineDebit l = 0 ∧ lineCredit l = 0) ∨
    (0 < lineDebit l ∧ 0 < lineCredit l)

def c1BadInput : PostJournalInput :=
  { memo := some "m", datetime := some 0, referenceType := none, referenceId := none,
    lines := [{ accountKey := "A", debit := some 10, credit := some 10, meta := [] },
              { accountKey := "B", debit := none, credit := some 10, meta := [] }] }

def c1LineA : LineInput :=
  { accountKey := "A", debit := some 100, credit := none, meta := [] }

def c1LineB : LineInput :=
  { accountKey := "B", debit := none, credit := some (9999/100), meta := [] }

def c1UnbalancedInput : PostJournalInput :=
  { memo := some "m", datetime := some 0, referenceType := none, referenceId := none,
    lines := [c1LineA, c1LineB] }

def c1DB : DB := { accounts := [], journals := [], entries := [], nextId := 0 }

/-- The plain ancestor chain from a starting key: the sequence of keys
the `validateParent` walk examines, without the visited set or the
depth cap (the fuel only truncates the list). -/
def plainWalk (accounts : List Account) : Option String → Nat → List String
  | _, 0 => []
  | none, _ + 1 => []
  | some c, n + 1 =>
    if c = "" then []
    else
      c :: (match findAccount accounts c with
            | none => []
            | some node => plainWalk accounts node.parentAccountKey n)

def c7A : Account :=
  { key := "A", code := "1", name := "A", ty := .asset, parentGroup := .asset,
    group := "G", isActive := true, parentAccountKey := none }

def c7B : Account :=
  { key := "B", code := "2", name := "B", ty := .asset, parentGroup := .asset,
    group := "G", isActive := true, parentAccountKey := some "A" }

def c7C : Account :=
  { key := "C", code := "3", name := "C", ty := .asset, parentGroup := .asset,
    group := "G", isActive := true, parentAccountKey := some "B" }

def c7D : Account :=
  { key := "D", code := "4", name := "D", ty := .asset, parentGroup := .asset,
    group := "G", isActive := true, parentAccountKey := none }

def c7Accounts : List Account := [c7A, c7B, c7C, c7D]

def c7DB : DB := { accounts := c7Accounts, journals := [], entries := [], nextId := 0 }

def c7Upd : UpdateAccountInput :=
  { key := "A", name := none, group := none, isActive := none, extra := none,
    parentAccountKey := some (some "D") }

instance : IsTrans Entry entryLE := by
  constructor
  intro a b c hab hbc
  unfold entryLE at *
  omega

instance : IsTotal Entry entryLE := by
  constructor
  intro a b
  unfold entryLE
  omega

/-- The entry match of the ledger query, with `from` resolved. -/
def ledgerMatchQuery (q : LedgerQuery) (f : Int) : BalanceQuery :=
  { accountKey := q.accountKey, fromD := some f, toD := q.toD, metaFilter := q.metaFilter }

/-- The opening-balance query of the ledger: everything strictly before
`from`, that is `to = from − 1` (milliseconds). -/
def ledgerPreQuery (q : LedgerQuery) (f : Int) : BalanceQuery :=
  { accountKey := q.accountKey, fromD := none, toD := some (f - 1),
    metaFilter := q.metaFilter }

/-- The page window of the ledger: time-ordered matching entries,
skip/limit according to page and pageSize (JS `|| 1` and `|| 50`). -/
def ledgerPage (q : LedgerQuery) (db : DB) (f : Int) : List Entry :=
  (((db.entries.filter (entryMatches (ledgerMatchQuery q f))).insertionSort
      entryLE).drop ((orDefault q.page 1 - 1) * orDefault q.pageSize 50)).take
    (orDefault q.pageSize 50)

def c5Acct : Account :=
  { key := "CASH", code := "1000", name := "Cash", ty := .asset, parentGroup := .asset,
    group := "G", isActive := true, parentAccountKey := none }

def c5E1 : Entry :=
  { id := 1, journalId := 0, accountKey := "CASH", accountCode := "1000",
    debit := 10, credit := 0, meta := [], datetime := 5, voided := false }

def c5E2 : Entry :=
  { id := 2, journalId := 0, accountKey := "CASH", accountCode := "1000",
    debit := 0, credit := 3, meta := [], datetime := 10, voided := false }

def c5E3 : Entry :=
  { id := 3, journalId := 0, accountKey := "CASH", accountCode := "1000",
    debit := 2, credit := 0, meta := [], datetime := 10, voided := false }

def c5DB : DB :=
  { accounts := [c5Acct], journals := [], entries := [c5E1, c5E2, c5E3], nextId := 4 }

def c5Q : LedgerQuery :=
  { accountKey := "CASH", fromD := some 7, toD := none, metaFilter := none,
    page := none, pageSize := none }

def c3A1 : Account :=
  { key := "A1", code := "1", name := "A1", ty := .asset, parentGroup := .asset,
    group := "G", isActive := true, parentAccountKey := none }

def c3A2 : Account :=
  { key := "A2", code := "2", name := "A2", ty := .asset, parentGroup := .asset,
    group := "G", isActive := true, parentAccountKey := none }

def c3A3 : Account :=
  { key := "A3", code := "3", name := "A3", ty := .asset, parentGroup := .asset,
    group := "G", isActive := true, parentAccountKey := none }

/-- A store whose single journal is balanced exactly, but whose sub-cent
amounts round differently across the debit and credit groupings. -/
def c3DB : DB :=
  { accounts := [c3A1, c3A2, c3A3],
    journals := [],
    entries :=
      [{ id := 1, journalId := 1, accountKey := "A1", accountCode := "1",
         debit := 1/250, credit := 0, meta := [], datetime := 0, voided := false },
       { id := 2, journalId := 1, accountKey := "A2", accountCode := "2",
         debit := 1/250, credit := 0, meta := [], datetime := 0, voided := false },
       { id := 3, journalId := 1, accountKey := "A3", accountCode := "3",
         debit := 0, credit := 1/125, meta := [], datetime := 0, voided := false }],
    nextId := 4 }

/-- A store whose single journal is balanced exactly with whole amounts,
but one entry's account key has no account record. -/
def c3DB2 : DB :=
  { accounts := [c3A1],
    journals := [],
    entries :=
      [{ id := 1, journalId := 1, accountKey := "GHOST", accountCode := "9",
         debit := 5, credit := 0, meta := [], datetime := 0, voided := false },
       { id := 2, journalId := 1, accountKey := "A1", accountCode := "1",
         debit := 0, credit := 5, meta := [], datetime := 0, voided := false }],
    nextId := 3 }

def c3Q : TrialBalanceQuery := { fromD := none, toD := none }

def c3WDB : DB :=
  { accounts := [c3A1, c3A2],
    journals := [],
    entries :=
      [{ id := 1, journalId := 1, accountKey := "A1", accountCode := "1",
         debit := 5, credit := 0, meta := [], datetime := 0, voided := false },
       { id := 2, journalId := 1, accountKey := "A2", accountCode := "2",
         debit := 0, credit := 5, meta := [], datetime := 0, voided := false }],
    nextId := 3 }

/-- The quantity `assets − liabilities − equity − netIncome` tracked
through the balance-sheet fold. -/
def bsMeasure (acc : BSAcc) : ℚ :=
  acc.totalAssets - acc.totalLiab - acc.totalEquity - acc.netIncome

/-- The signed contribution of one grouped account key to `bsMeasure`. -/
def bsSigned (db : DB) (matched : List Entry) (k : String) : ℚ :=
  match findAccountMap db.accounts k with
  | none => 0
  | some a =>
    let net := getNetBalance (sumDebitFor matched k) (sumCreditFor matched k) a.ty a.parentGroup
    match a.parentGroup with
    | .asset => net
    | .liability => -net
    | .equity => -net
    | .income => -net
    | .expense => net

def c2Cash : Account :=
  { key := "CASH", code := "1", name := "Cash", ty := .asset, parentGroup := .asset,
    group := "G", isActive := true, parentAccountKey := none }

def c2CL : Account :=
  { key := "CL", code := "2", name := "Discount", ty := .contra, parentGroup := .liability,
    group := "G", isActive := true, parentAccountKey := none }

/-- A chart with a contra-liability account: its debit-normal net is
added (not subtracted) to the liabilities total. -/
def c2DB : DB :=
  { accounts := [c2Cash, c2CL],
    journals := [],
    entries :=
      [{ id := 1, journalId := 1, accountKey := "CL", accountCode := "2",
         debit := 100, credit := 0, meta := [], datetime := 0, voided := false },
       { id := 2, journalId := 1, accountKey := "CASH", accountCode := "1",
         debit := 0, credit := 100, meta := [], datetime := 0, voided := false }],
    nextId := 3 }

def c2Rev : Account :=
  { key := "REV", code := "4", name := "Revenue", ty := .income, parentGroup := .income,
    group := "G", isActive := true, parentAccountKey := none }

/-- Sub-cent amounts: balanced exactly, but per-account rounding breaks
the identity. -/
def c2DBb : DB :=
  { accounts := [c3A1, c3A2, c2Rev],
    journals := [],
    entries :=
      [{ id := 1, journalId := 1, accountKey := "A1", accountCode := "1",
         debit := 1/250, credit := 0, meta := [], datetime := 0, voided := false },
       { id := 2, journalId := 1, accountKey := "A2", accountCode := "2",
         debit := 1/250, credit := 0, meta := [], datetime := 0, voided := false },
       { id := 3, journalId := 1, accountKey := "REV", accountCode := "4",
         debit := 0, credit := 1/125, meta := [], datetime := 0, voided := false }],
    nextId := 4 }

/-- An entry on an account key with no account record is skipped. -/
def c2DBc : DB :=
  { accounts := [c2Cash],
    journals := [],
    entries :=
      [{ id := 1, journalId := 1, accountKey := "CASH", accountCode := "1",
         debit := 5, credit := 0, meta := [], datetime := 0, voided := false },
       { id := 2, journalId := 1, accountKey := "GHOST", accountCode := "9",
         debit := 0, credit := 5, meta := [], datetime := 0, voided := false }],
    nextId := 3 }

def c8Cash : Account :=
  { key := "CASH", code := "1000", name := "Cash", ty := .asset, parentGroup := .asset,
    group := "G", isActive := true, parentAccountKey := none }

def c8OBE : Account := DEFAULT_OPENING_BALANCE_ACCOUNT

/-- A store holding CASH, the default offset account, and a prior
active opening-balance journal for CASH with its two entries. -/
def c8DB : DB :=
  { accounts := [c8Cash, c8OBE],
    journals :=
      [{ id := 1, memo := "old ob", datetime := 0, referenceType := some "opening_balance",
         referenceId := some "CASH", voided := false, voidReason := none }],
    entries :=
      [{ id := 2, journalId := 1, accountKey := "CASH", accountCode := "1000",
         debit := 200, credit := 0, meta := [], datetime := 0, voided := false },
       { id := 3, journalId := 1, accountKey := "OPENING_BALANCE_EQUITY", accountCode := "3999",
         debit := 0, credit := 200, meta := [], datetime := 0, voided := false }],
    nextId := 4 }

def c8In : OpeningBalanceInput :=
  { accountKey := "CASH", amount := 500, datetime := some 10, memo := none,
    offsetAccountKey := none, meta := [] }

/-- An amount that rounds to zero at 2 decimals. -/
def c8InZero : OpeningBalanceInput :=
  { accountKey := "CASH", amount := 1/250, datetime := some 10, memo := none,
    offsetAccountKey := none, meta := [] }

/-- The store after `applyOpeningBalance(CASH, 500)`: the prior journal
and its entries voided, and the new balanced 2-line journal appended. -/
def c8DBAfter : DB :=
  { accounts := [c8Cash, c8OBE],
    journals :=
      [{ id := 1, memo := "old ob", datetime := 0, referenceType := some "opening_balance",
         referenceId := some "CASH", voided := true,
         voidReason := some "Updated opening balance" },
       { id := 4, memo := "Opening balance for Cash", datetime := 10,
         referenceType := some "opening_balance", referenceId := some "CASH",
         voided := false, voidReason := none }],
    entries :=
      [{ id := 2, journalId := 1, accountKey := "CASH", accountCode := "1000",
         debit := 200, credit := 0, meta := [], datetime := 0, voided := true },
       { id := 3, journalId := 1, accountKey := "OPENING_BALANCE_EQUITY", accountCode := "3999",
         debit := 0, credit := 200, meta := [], datetime := 0, voided := true },
       { id := 5, journalId := 4, accountKey := "CASH", accountCode := "1000",
         debit := 500, credit := 0, meta := [], datetime := 10, voided := false },
       { id := 6, journalId := 4, accountKey := "OPENING_BALANCE_EQUITY", accountCode := "3999",
         debit := 0, credit := 500, meta := [("offsetFor", "CASH")], datetime := 10,
         voided := false }],
    nextId := 7 }

def c8PR : PostResult :=
  { journal := { id := 4, memo := "Opening balance for Cash", datetime := 10,
                 referenceType := some "opening_balance", referenceId := some "CASH",
                 voided := false, voidReason := none },
    transactions :=
      [{ id := 5, journalId := 4, accountKey := "CASH", accountCode := "1000",
         debit := 500, credit := 0, meta := [], datetime := 10, voided := false },
       { id := 6, journalId := 4, accountKey := "OPENING_BALANCE_EQUITY", accountCode := "3999",
         debit := 0, credit := 500, meta := [("offsetFor", "CASH")], datetime := 10,
         voided := false }] }

theorem jround_isCents (q : ℚ) : IsCents (jround q) := ⟨⌊q * 100 + 1/2⌋, rfl⟩

theorem IsCents.zero : IsCents 0 := ⟨0, by norm_num⟩

theorem IsCents.add {a b : ℚ} (ha : IsCents a) (hb : IsCents b) : IsCents (a + b) := by
  obtain ⟨m, rfl⟩ := ha
  obtain ⟨n, rfl⟩ := hb
  exact ⟨m + n, by push_cast; ring⟩

theorem IsCents.neg {a : ℚ} (ha : IsCents a) : IsCents (-a) := by
  obtain ⟨m, rfl⟩ := ha
  exact ⟨-m, by push_cast; ring⟩

theorem IsCents.sub {a b : ℚ} (ha : IsCents a) (hb : IsCents b) : IsCents (a - b) := by
  simpa [sub_eq_add_neg] using ha.add hb.neg

theorem IsCents.listSum {l : List ℚ} (h : ∀ x ∈ l, IsCents x) : IsCents l.sum := by
  induction l with
  | nil => simpa using IsCents.zero
  | cons a l ih =>
    simp only [List.sum_cons]
    exact (h a (by simp)).add (ih (fun x hx => h x (by simp [hx])))

/-- On a whole number of cents the 2-decimal rounding is the identity. -/
theorem jround_cents {q : ℚ} (h : IsCents q) : jround q = q := by
  obtain ⟨n, rfl⟩ := h
  unfold jround
  have h1 : (n : ℚ) / 100 * 100 + 1 / 2 = (n : ℚ) + 1 / 2 := by
    field_simp
  rw [h1]
  have h2 : ⌊(n : ℚ) + 1 / 2⌋ = n := by
    rw [Int.floor_int_add]
    norm_num
  rw [h2]

/-! ## Sum partition lemmas -/

theorem sum_map_filter_add {α : Type} (l : List α) (p : α → Bool) (f : α → ℚ) :
    ((l.filter p).map f).sum + ((l.filter (fun x => !p x)).map f).sum = (l.map f).sum := by
  induction l with
  | nil => simp
  | cons a l ih =>
    by_cases hp : p a
    · simp [List.filter_cons, hp, ← ih]
      ring
    · simp [List.filter_cons, hp, ← ih]
      ring

/-- Summing groupwise over a duplicate-free cover of the keys equals
summing over the whole list. -/
theorem sum_partition {α K : Type} [DecidableEq K] (key : α → K) (f : α → ℚ) :
    ∀ (ks : List K) (l : List α), ks.Nodup → (∀ e ∈ l, key e ∈ ks) →
      (ks.map (fun k => ((l.filter (fun e => decide (key e = k))).map f).sum)).sum
        = (l.map f).sum := by
  intro ks
  induction ks with
  | nil =>
    intro l _ hcov
    have : l = [] := List.eq_nil_iff_forall_not_mem.mpr (fun e he => by simpa using hcov e he)
    simp [this]
  | cons k ks ih =>
    intro l hnd hcov
    have hknotin : k ∉ ks := (List.nodup_cons.mp hnd).1
    have hndks : ks.Nodup := (List.nodup_cons.mp hnd).2
    have htail : ∀ k' ∈ ks,
        ((l.filter (fun e => decide (key e = k'))).map f).sum
          = (((l.filter (fun e => !decide (key e = k))).filter
              (fun e => decide (key e = k'))).map f).sum := by
      intro k' hk'
      have hkk' : k' ≠ k := fun h => hknotin (h ▸ hk')
      have : (l.filter (fun e => !decide (key e = k))).filter
          (fun e => decide (key e = k'))
          = l.filter (fun e => decide (key e = k')) := by
        rw [List.filter_filter]
        apply List.filter_congr
        intro e _
        by_cases he : key e = k'
        · simp [he, hkk']
        · simp [he]
      rw [this]
    have hcov' : ∀ e ∈ l.filter (fun e => !decide (key e = k)), key e ∈ ks := by
      intro e he
      rw [List.mem_filter] at he
      have h1 := hcov e he.1
      have h2 : key e ≠ k := by simpa using he.2
      simpa [h2] using h1
    calc
      (((k :: ks)).map (fun k' =>
          ((l.filter (fun e => decide (key e = k'))).map f).sum)).sum
        = ((l.filter (fun e => decide (key e = k))).map f).sum
            + (ks.map (fun k' =>
                ((l.filter (fun e => decide (key e = k'))).map f).sum)).sum := by
          simp
      _ = ((l.filter (fun e => decide (key e = k))).map f).sum
            + (ks.map (fun k' =>
                (((l.filter (fun e => !decide (key e = k))).filter
                  (fun e => decide (key e = k'))).map f).sum)).sum := by
          rw [List.map_congr_left htail]
      _ = ((l.filter (fun e => decide (key e = k))).map f).sum
            + ((l.filter (fun e => !decide (key e = k))).map f).sum := by
          rw [ih _ hndks hcov']
      _ = (l.map f).sum := sum_map_filter_add l _ f

/-- Specialisation: grouping by the deduplicated keys of the list itself. -/
theorem sum_partition_dedup {α K : Type} [DecidableEq K] (key : α → K) (f : α → ℚ)
    (l : List α) :
    (((l.map key).dedup).map (fun k =>
        ((l.filter (fun e => decide (key e = k))).map f).sum)).sum = (l.map f).sum := by
  apply sum_partition
  · exact List.nodup_dedup _
  · intro e he
    exact List.mem_dedup.mpr (List.mem_map_of_mem key he)

/-- If every group of a grouping balances (debit sum = credit sum), the
whole list balances. -/
theorem sum_eq_of_groups_balanced {α K : Type} [DecidableEq K] (key : α → K)
    (f g : α → ℚ) (l : List α)
    (h : ∀ k, ((l.filter (fun e => decide (key e = k))).map f).sum
        = ((l.filter (fun e => decide (key e = k))).map g).sum) :
    (l.map f).sum = (l.map g).sum := by
  rw [← sum_partition_dedup key f l, ← sum_partition_dedup key g l]
  exact congrArg List.sum (List.map_congr_left (fun k _ => h k))

/-! ## Claim C10: getAccountBalance on unknown accounts -/

/-- C10: for every query with no matching non-voided entries,
`getAccountBalance` returns `{balance: 0, debit: 0, credit: 0}` without
checking that the account exists, so it never raises
`AccountNotFoundError` for an unknown account with no entries; only when
matching entries exist but the account record is absent does it throw,
and then a plain `Error` rather than `AccountNotFoundError`. -/
theorem c10_getAccountBalance_unknown (q : BalanceQuery) (db : DB) :
    (db.entries.filter (entryMatches q) = [] →
      getAccountBalance q db = .ok { balance := 0, debit := 0, credit := 0 }) ∧
    (db.entries.filter (entryMatches q) ≠ [] →
      findAccount db.accounts q.accountKey = none →
      getAccountBalance q db = .error (.plain "Account not found")) := by
  constructor
  · intro h
    simp [getAccountBalance, h]
  · intro h hna
    simp [getAccountBalance, List.isEmpty_iff, h, hna]

theorem c10_witness :
    getAccountBalance { accountKey := "Y", fromD := none, toD := none, metaFilter := none }
        c10DB = .ok { balance := 0, debit := 0, credit := 0 } ∧
    getAccountBalance { accountKey := "X", fromD := none, toD := none, metaFilter := none }
        c10DB = .error (.plain "Account not found") :=
  ⟨(c10_getAccountBalance_unknown _ c10DB).1 (by simp [c10DB, entryMatches]),
   (c10_getAccountBalance_unknown _ c10DB).2 (by simp [c10DB, entryMatches]) (by rfl)⟩

/-! ## Claim C4: voidJournal -/

theorem voidJournalUpd_eq_none_of {id : Nat} {reason : String} {l : List Journal}
    (h : ∀ j ∈ l, ¬(j.id = id ∧ j.voided = false)) :
    voidJournalUpd id reason l = none := by
  induction l with
  | nil => rfl
  | cons j js ih =>
    rw [voidJournalUpd, if_neg (h j (by simp)),
        ih (fun j' hm => h j' (by simp [hm]))]

theorem voidJournalUpd_eq_map {id : Nat} {reason : String} {l : List Journal}
    (hnd : (l.map (·.id)).Nodup)
    (hex : ∃ j ∈ l, j.id = id ∧ j.voided = false) :
    voidJournalUpd id reason l
      = some (l.map (fun j => if j.id = id then markVoided reason j else j)) := by
  induction l with
  | nil => simp at hex
  | cons j js ih =>
    rw [List.map_cons, List.nodup_cons] at hnd
    by_cases hj : j.id = id ∧ j.voided = false
    · rw [voidJournalUpd, if_pos hj]
      have hno : ∀ j' ∈ js, j'.id ≠ id := by
        intro j' hj' he
        exact hnd.1 (by rw [hj.1, ← he]; exact List.mem_map_of_mem _ hj')
      have htail : js.map (fun j' => if j'.id = id then markVoided reason j' else j') = js := by
        rw [List.map_congr_left (fun j' hj' => if_neg (hno j' hj'))]
        exact List.map_id js
      rw [List.map_cons, if_pos hj.1, htail]
      rfl
    · by_cases hid : j.id = id
      · exfalso
        have hv : j.voided = true := by
          rcases Bool.eq_false_or_eq_true j.voided with h | h
          · exact h
          · exact absurd ⟨hid, h⟩ hj
        obtain ⟨j', hj', hj'id, hj'v⟩ := hex
        rcases List.mem_cons.mp hj' with rfl | hmem
        · rw [hv] at hj'v; cases hj'v
        · exact hnd.1 (by rw [hid, ← hj'id]; exact List.mem_map_of_mem _ hmem)
      · have hex' : ∃ j' ∈ js, j'.id = id ∧ j'.voided = false := by
          obtain ⟨j', hj', hrest⟩ := hex
          rcases List.mem_cons.mp hj' with rfl | hmem
          · exact absurd hrest hj
          · exact ⟨j', hmem, hrest⟩
        rw [voidJournalUpd, if_neg hj, ih hnd.2 hex', List.map_cons, if_neg hid]

/-- C4: `voidJournal(id, reason)` succeeds exactly when a journal with
that id exists with `voided = false`; on success it sets that journal's
`voided = true` and `voidReason`, sets `voided = true` on every entry of
that journal (all others unchanged); if the journal does not exist or is
already voided it fails with `ValidationError` and the store is
unchanged. -/
theorem c4_voidJournal (id : Nat) (reason : String) (db : DB)
    (hnd : (db.journals.map (·.id)).Nodup) :
    ((∃ j ∈ db.journals, j.id = id ∧ j.voided = false) →
      (voidJournal id reason db).2 = .ok true ∧
      (voidJournal id reason db).1.journals
        = db.journals.map (fun j => if j.id = id then markVoided reason j else j) ∧
      (voidJournal id reason db).1.entries
        = db.entries.map (fun e => if e.journalId = id then { e with voided := true } else e) ∧
      (voidJournal id reason db).1.accounts = db.accounts) ∧
    ((¬∃ j ∈ db.journals, j.id = id ∧ j.voided = false) →
      voidJournal id reason db
        = (db, .error (.validation "Journal not found or already voided"))) := by
  constructor
  · intro hex
    rw [voidJournal, voidJournalUpd_eq_map hnd hex]
    exact ⟨rfl, rfl, rfl, rfl⟩
  · intro hnex
    have h0 : voidJournalUpd id reason db.journals = none :=
      voidJournalUpd_eq_none_of (fun j hj hc => hnex ⟨j, hj, hc⟩)
    rw [voidJournal, h0]

theorem c4_witness :
    (voidJournal 1 "r" c4DB).2 = .ok true ∧
    (voidJournal 1 "r" c4DB).1.entries
      = c4DB.entries.map (fun e => if e.journalId = 1 then { e with voided := true } else e) ∧
    voidJournal 2 "r" c4DB
      = (c4DB, .error (.validation "Journal not found or already voided")) :=
  ⟨((c4_voidJournal 1 "r" c4DB (by simp [c4DB])).1 (by simp [c4DB])).1,
   ((c4_voidJournal 1 "r" c4DB (by simp [c4DB])).1 (by simp [c4DB])).2.2.1,
   (c4_voidJournal 2 "r" c4DB (by simp [c4DB])).2 (by simp [c4DB])⟩

/-! ## Claim C9: voidJournalsByIdentifier (spec-modelled) -/

/-- C9: `voidJournalsByIdentifier(identifier, reason)` bulk-voids the
journals selected by journalId or by the (referenceType, referenceId)
pair, returns the counts of journals and entries voided, and succeeds
with zero counts (not an error) when no journal matches.  (The
implementation is absent from the sources; the definition is modelled
from the spec.) -/
theorem c9_voidJournalsByIdentifier (ident : VoidIdentifier) (reason : String) (db : DB) :
    (voidJournalsByIdentifier ident reason db).2
      = .ok { journalsVoided := (db.journals.filter (voidIdentMatches ident)).length,
              transactionsVoided :=
                (db.entries.filter (fun e =>
                  ((db.journals.filter (voidIdentMatches ident)).map (·.id)).contains
                    e.journalId)).length } ∧
    (db.journals.filter (voidIdentMatches ident) = [] →
      voidJournalsByIdentifier ident reason db
        = (db, .ok { journalsVoided := 0, transactionsVoided := 0 })) ∧
    (∀ j ∈ db.journals, voidIdentMatches ident j = true →
      markVoided reason j ∈ (voidJournalsByIdentifier ident reason db).1.journals) := by
  refine ⟨rfl, ?_, ?_⟩
  · intro hnil
    have hsel : ∀ j ∈ db.journals, ¬(voidIdentMatches ident j = true) :=
      List.filter_eq_nil_iff.mp hnil
    have hj : db.journals.map (fun j =>
        if voidIdentMatches ident j
        then { j with voided := true, voidReason := some reason } else j) = db.journals := by
      rw [List.map_congr_left (fun j hjm => if_neg (hsel j hjm))]
      exact List.map_id _
    simp only [voidJournalsByIdentifier, hnil, List.map_nil, hj]
    simp
  · intro j hj hsel
    have hmem := List.mem_map_of_mem
      (fun j => if voidIdentMatches ident j then markVoided reason j else j) hj
    simp only [hsel, if_true] at hmem
    exact hmem

theorem c9_witness :
    (voidJournalsByIdentifier c9Ident "r" c9DB).2
      = .ok { journalsVoided := 1, transactionsVoided := 1 } ∧
    voidJournalsByIdentifier c9IdentNone "r" c9DB
      = (c9DB, .ok { journalsVoided := 0, transactionsVoided := 0 }) ∧
    markVoided "r" (c9DB.journals.head (by simp [c9DB]))
      ∈ (voidJournalsByIdentifier c9Ident "r" c9DB).1.journals := by
  refine ⟨?_, ?_, ?_⟩
  · have h := (c9_voidJournalsByIdentifier c9Ident "r" c9DB).1
    rw [h]
    simp [c9DB, c9Ident, voidIdentMatches]
  · exact (c9_voidJournalsByIdentifier c9IdentNone "r" c9DB).2.1
      (by simp [c9DB, c9IdentNone, voidIdentMatches])
  · exact (c9_voidJournalsByIdentifier c9Ident "r" c9DB).2.2
      (c9DB.journals.head (by simp [c9DB])) (by simp [c9DB])
      (by simp [c9DB, c9Ident, voidIdentMatches])

/-! ## Claim C6: createAccount -/

theorem validateAccountStructure_error_validation {d : CreateAccountInput} {e : Err}
    (h : validateAccountStructure d = .error e) : ∃ m, e = .validation m := by
  unfold validateAccountStructure at h
  split_ifs at h <;>
    first
      | (injection h with h'; exact ⟨_, h'.symm⟩)
      | (exact Except.noConfusion h)

theorem validateAccountStructure_ok_spec {d : CreateAccountInput}
    (h : validateAccountStructure d = .ok ()) :
    ¬missingAccountField d ∧ parseIntNaN d.code = false ∧ ¬typeParentMismatch d := by
  unfold validateAccountStructure at h
  split_ifs at h with h1 h2 h3 h4 h5 h6 h7 h8
  refine ⟨h1, by simpa using h2, ?_⟩
  intro hc
  rcases hc with c | c | c | c | c | c
  · exact h3 c
  · exact h4 c
  · exact h5 c
  · exact h6 c
  · exact h7 c
  · exact h8 c

theorem createAccount_error_validation {d : CreateAccountInput} {db : DB} {e : Err}
    (h : (createAccount d db).2 = .error e) : ∃ m, e = .validation m := by
  unfold createAccount at h
  cases hv : validateAccountStructure d with
  | error e' =>
    rw [hv] at h
    injection h with h'
    exact h' ▸ validateAccountStructure_error_validation hv
  | ok u =>
    cases u
    rw [hv] at h
    dsimp only at h
    by_cases hpar : strTruthy d.parentAccountKey = true ∧
        (findAccount db.accounts (d.parentAccountKey.getD "")).isNone = true
    · rw [if_pos hpar] at h
      injection h with h'
      exact ⟨_, h'.symm⟩
    · rw [if_neg hpar] at h
      by_cases hf : (db.accounts.find?
          (fun a => decide (a.key = d.key) || decide (a.code = d.code))).isSome = true
      · rw [if_pos hf] at h
        injection h with h'
        exact ⟨_, h'.symm⟩
      · rw [if_neg hf] at h
        exact Except.noConfusion h

theorem createAccount_ok_spec {d : CreateAccountInput} {db : DB} {doc : Account}
    (h : (createAccount d db).2 = .ok doc) :
    validateAccountStructure d = .ok () ∧
    ¬(strTruthy d.parentAccountKey = true ∧
      findAccount db.accounts (d.parentAccountKey.getD "") = none) ∧
    (∀ a ∈ db.accounts, ¬(a.key = d.key ∨ a.code = d.code)) ∧
    doc.isActive = true ∧
    (createAccount d db).1.accounts = db.accounts ++ [doc] := by
  have hcopy := h
  unfold createAccount at h
  cases hv : validateAccountStructure d with
  | error e' =>
    rw [hv] at h
    exact Except.noConfusion h
  | ok u =>
    cases u
    rw [hv] at h
    dsimp only at h
    by_cases hpar : strTruthy d.parentAccountKey = true ∧
        (findAccount db.accounts (d.parentAccountKey.getD "")).isNone = true
    · rw [if_pos hpar] at h
      exact Except.noConfusion h
    · rw [if_neg hpar] at h
      by_cases hf : (db.accounts.find?
          (fun a => decide (a.key = d.key) || decide (a.code = d.code))).isSome = true
      · rw [if_pos hf] at h
        exact Except.noConfusion h
      · rw [if_neg hf] at h
        dsimp only at h
        injection h with h'
        have heq : createAccount d db
            = ({ db with accounts := db.accounts ++ [doc] }, .ok doc) := by
          unfold createAccount
          rw [hv]
          try dsimp only
          rw [if_neg hpar, if_neg hf]
          rw [← h']
        refine ⟨rfl, ?_, ?_, ?_, ?_⟩
        · intro hc
          rcases hc with ⟨ht, hn⟩
          exact hpar ⟨ht, by rw [hn]; rfl⟩
        · intro a ha hc
          have hnone : db.accounts.find?
              (fun a => decide (a.key = d.key) || decide (a.code = d.code)) = none := by
            cases hff : db.accounts.find?
                (fun a => decide (a.key = d.key) || decide (a.code = d.code)) with
            | none => rfl
            | some x => rw [hff] at hf; exact absurd rfl hf
          have := List.find?_eq_none.mp hnone a ha
          simp at this
          rcases hc with hc | hc
          · exact this.1 hc
          · exact this.2 hc
        · rw [← h']
        · rw [heq]

/-- C6 (amended): `createAccount` rejects with `ValidationError` every
input that is missing a required field, whose code fails JavaScript
`parseInt` (no leading integer after optional whitespace and sign — the
source accepts codes such as `"12abc"` that merely start with digits),
whose type and parentGroup violate the consistency table, whose given
`parentAccountKey` refers to no existing account, or whose key or code
duplicates an existing account; on every accepted input it persists the
account with `isActive = true`. -/
theorem c6_createAccount (d : CreateAccountInput) (db : DB) :
    (missingAccountField d → ∃ m, (createAccount d db).2 = .error (.validation m)) ∧
    (parseIntNaN d.code = true → ∃ m, (createAccount d db).2 = .error (.validation m)) ∧
    (typeParentMismatch d → ∃ m, (createAccount d db).2 = .error (.validation m)) ∧
    (strTruthy d.parentAccountKey = true →
      findAccount db.accounts (d.parentAccountKey.getD "") = none →
      ∃ m, (createAccount d db).2 = .error (.validation m)) ∧
    ((∃ a ∈ db.accounts, a.key = d.key ∨ a.code = d.code) →
      ∃ m, (createAccount d db).2 = .error (.validation m)) ∧
    (∀ doc, (createAccount d db).2 = .ok doc →
      doc.isActive = true ∧ (createAccount d db).1.accounts = db.accounts ++ [doc]) := by
  have herr : ∀ h : ¬(∃ doc, (createAccount d db).2 = .ok doc),
      ∃ m, (createAccount d db).2 = .error (.validation m) := by
    intro h
    cases hr : (createAccount d db).2 with
    | ok doc => exact absurd ⟨doc, hr⟩ h
    | error e =>
      obtain ⟨m, rfl⟩ := createAccount_error_validation hr
      exact ⟨m, rfl⟩
  refine ⟨?_, ?_, ?_, ?_, ?_, ?_⟩
  · intro hc
    refine herr ?_
    rintro ⟨doc, hok⟩
    exact (validateAccountStructure_ok_spec (createAccount_ok_spec hok).1).1 hc
  · intro hc
    refine herr ?_
    rintro ⟨doc, hok⟩
    have := (validateAccountStructure_ok_spec (createAccount_ok_spec hok).1).2.1
    rw [hc] at this
    cases this
  · intro hc
    refine herr ?_
    rintro ⟨doc, hok⟩
    exact (validateAccountStructure_ok_spec (createAccount_ok_spec hok).1).2.2 hc
  · intro ht hn
    refine herr ?_
    rintro ⟨doc, hok⟩
    exact (createAccount_ok_spec hok).2.1 ⟨ht, hn⟩
  · intro hc
    refine herr ?_
    rintro ⟨doc, hok⟩
    obtain ⟨a, ha, hak⟩ := hc
    exact (createAccount_ok_spec hok).2.2.1 a ha hak
  · intro doc hok
    exact ⟨(createAccount_ok_spec hok).2.2.2.1, (createAccount_ok_spec hok).2.2.2.2⟩

/-- C6 counterexample: the claim says `createAccount` rejects every
input whose code is not a numeric string, but the source only checks
`isNaN(parseInt(code, 10))`, so the non-numeric code `"12abc"` is
accepted and the account is persisted. -/
theorem c6_counterexample :
    ("12abc".toList.all Char.isDigit = false) ∧
    (createAccount c6Input c6DB).2
      = .ok { key := "K1", code := "12abc", name := "Name", ty := .asset,
              parentGroup := .asset, group := "G", isActive := true,
              parentAccountKey := none } := by
  constructor
  · decide
  · rfl

theorem c6_witness :
    (∃ m, (createAccount c6InMissing c6DB).2 = .error (.validation m)) ∧
    (∃ m, (createAccount c6InBadCode c6DB).2 = .error (.validation m)) ∧
    (∃ m, (createAccount c6InMismatch c6DB).2 = .error (.validation m)) ∧
    (∃ m, (createAccount c6InNoParent c6DB).2 = .error (.validation m)) :=
  ⟨(c6_createAccount _ c6DB).1 (by left; rfl),
   (c6_createAccount _ c6DB).2.1 (by decide),
   (c6_createAccount _ c6DB).2.2.1 (by right; right; right; right; right; exact ⟨rfl, by decide⟩),
   (c6_createAccount _ c6DB).2.2.2.1 (by decide) (by rfl)⟩

/-! ## Claim C1: postJournal validation, and no persistence on error -/

theorem processLines_error_of_bad {ls : List LineInput}
    (h : ∃ l ∈ ls, lineBad l) (td tc : ℚ) :
    ∃ m, processLines ls td tc = .error (.validation m) := by
  induction ls generalizing td tc with
  | nil => simp at h
  | cons l ls ih =>
    rw [processLines]
    by_cases h1 : lineDebit l < 0 ∨ lineCredit l < 0
    · rw [if_pos h1]
      exact ⟨_, rfl⟩
    · rw [if_neg h1]
      by_cases h2 : lineDebit l = 0 ∧ lineCredit l = 0
      · rw [if_pos h2]
        exact ⟨_, rfl⟩
      · rw [if_neg h2]
        by_cases h3 : 0 < lineDebit l ∧ 0 < lineCredit l
        · rw [if_pos h3]
          exact ⟨_, rfl⟩
        · rw [if_neg h3]
          have hbadtail : ∃ l' ∈ ls, lineBad l' := by
            obtain ⟨l', hl', hbad⟩ := h
            rcases List.mem_cons.mp hl' with rfl | hm
            · exfalso
              rcases hbad with hc | hc | hc | hc
              · exact h1 (Or.inl hc)
              · exact h1 (Or.inr hc)
              · exact h2 hc
              · exact h3 hc
            · exact ⟨l', hm, hbad⟩
          exact ih hbadtail _ _

theorem processLines_ok_of_good {ls : List LineInput}
    (h : ∀ l ∈ ls, ¬lineBad l) (td tc : ℚ) :
    processLines ls td tc
      = .ok (td + (ls.map lineDebit).sum, tc + (ls.map lineCredit).sum) := by
  induction ls generalizing td tc with
  | nil => simp [processLines]
  | cons l ls ih =>
    have hgood := h l (by simp)
    unfold lineBad at hgood
    push_neg at hgood
    rw [processLines, if_neg (by push_neg; exact ⟨hgood.1, hgood.2.1⟩),
        if_neg (fun hc => (hgood.2.2.1 hc.1) hc.2),
        if_neg (fun hc => absurd hc.2 (not_lt.mpr (hgood.2.2.2 hc.1))),
        ih (fun l' hm => h l' (by simp [hm])) _ _]
    simp only [List.map_cons, List.sum_cons, add_assoc]

/-- C1: for every `postJournal` request: if it has fewer than 2 lines,
or memo or datetime is missing, or any line has a negative debit or
credit, or any line has both sides zero, or any line has both sides
non-zero, `postJournal` raises `ValidationError`; if (none of those
holds and) the 2-decimal-rounded total debit differs from the rounded
total credit it raises `DoubleEntryError`; and in every such error case
no journal record and no entry record is persisted — the store is
returned unchanged. -/
theorem c1_postJournal_validation (data : PostJournalInput) (db : DB) :
    ((data.lines.length < 2 ∨ data.datetime = none ∨ strTruthy data.memo = false ∨
        ∃ l ∈ data.lines, lineBad l) →
      (postJournal data db).1 = db ∧
      ∃ m, (postJournal data db).2 = .error (.validation m)) ∧
    ((¬data.lines.length < 2 ∧ data.datetime ≠ none ∧ strTruthy data.memo = true ∧
        (∀ l ∈ data.lines, ¬lineBad l) ∧
        jround ((data.lines.map lineDebit).sum) ≠ jround ((data.lines.map lineCredit).sum)) →
      (postJournal data db).1 = db ∧
      ∃ m, (postJournal data db).2 = .error (.doubleEntry m)) := by
  constructor
  · intro h
    by_cases h1 : data.lines.length < 2
    · rw [postJournal, if_pos h1]
      exact ⟨rfl, _, rfl⟩
    · by_cases h2 : data.datetime.isNone = true
      · rw [postJournal, if_neg h1, if_pos h2]
        exact ⟨rfl, _, rfl⟩
      · by_cases h3 : (!strTruthy data.memo) = true
        · rw [postJournal, if_neg h1, if_neg h2, if_pos h3]
          exact ⟨rfl, _, rfl⟩
        · have hbad : ∃ l ∈ data.lines, lineBad l := by
            rcases h with hc | hc | hc | hc
            · exact absurd hc h1
            · exact absurd (Option.isNone_iff_eq_none.mpr hc) h2
            · exact absurd (by rw [hc]; rfl) h3
            · exact hc
          obtain ⟨m, hm⟩ := processLines_error_of_bad hbad 0 0
          rw [postJournal, if_neg h1, if_neg h2, if_neg h3, hm]
          exact ⟨rfl, _, rfl⟩
  · rintro ⟨h1, h2, h3, hgood, hne⟩
    rw [postJournal, if_neg h1,
        if_neg (fun hc => h2 (Option.isNone_iff_eq_none.mp hc)),
        if_neg (by rw [h3]; simp),
        processLines_ok_of_good hgood 0 0]
    simp only [zero_add]
    rw [if_pos hne]
    exact ⟨rfl, _, rfl⟩

theorem c1_witness :
    ((postJournal c1BadInput c1DB).1 = c1DB ∧
      ∃ m, (postJournal c1BadInput c1DB).2 = .error (.validation m)) ∧
    ((postJournal c1UnbalancedInput c1DB).1 = c1DB ∧
      ∃ m, (postJournal c1UnbalancedInput c1DB).2 = .error (.doubleEntry m)) := by
  constructor
  · refine (c1_postJournal_validation c1BadInput c1DB).1 ?_
    refine Or.inr (Or.inr (Or.inr ⟨c1BadInput.lines.head (by simp [c1BadInput]), by simp [c1BadInput], ?_⟩))
    refine Or.inr (Or.inr (Or.inr ?_))
    constructor <;> norm_num [c1BadInput, lineDebit, lineCredit]
  · refine (c1_postJournal_validation c1UnbalancedInput c1DB).2 ?_
    refine ⟨by simp [c1UnbalancedInput], by simp [c1UnbalancedInput], by simp [c1UnbalancedInput, strTruthy], ?_, ?_⟩
    · intro l hl
      have hl' : l = c1LineA ∨ l = c1LineB := by
        simpa [c1UnbalancedInput] using hl
      unfold lineBad
      rcases hl' with rfl | rfl <;> norm_num [c1LineA, c1LineB, lineDebit, lineCredit]
    · norm_num [c1UnbalancedInput, c1LineA, c1LineB, lineDebit, lineCredit, jround]

/-! ## Claim C7: validateParent cycle detection -/

theorem vpGo_ok_of_not_mem (accounts : List Account) (accountKey : String) :
    ∀ (fuel : Nat) (visited : List String) (ck : Option String),
      accountKey ∉ plainWalk accounts ck (fuel + 1) →
      vpGo accounts accountKey visited ck fuel = true := by
  intro fuel
  induction fuel with
  | zero =>
    intro visited ck h
    cases ck with
    | none => rfl
    | some c =>
      rw [vpGo]
      by_cases hc : c = ""
      · rw [if_pos hc]
      · rw [plainWalk, if_neg hc] at h
        rw [if_neg hc, if_neg (fun he => h (by rw [he]; exact List.mem_cons_self _ _))]
        by_cases hv : c ∈ visited
        · rw [if_pos hv]
        · rw [if_neg hv]
          cases findAccount accounts c with
          | none => rfl
          | some node => rfl
  | succ f ih =>
    intro visited ck h
    cases ck with
    | none => rfl
    | some c =>
      rw [vpGo]
      by_cases hc : c = ""
      · rw [if_pos hc]
      · rw [plainWalk, if_neg hc] at h
        rw [if_neg hc, if_neg (fun he => h (by rw [he]; exact List.mem_cons_self _ _))]
        by_cases hv : c ∈ visited
        · rw [if_pos hv]
        · rw [if_neg hv]
          cases hf : findAccount accounts c with
          | none => rfl
          | some node =>
            rw [hf] at h
            exact ih (c :: visited) node.parentAccountKey
              (fun hm => h (List.mem_cons_of_mem c hm))

theorem vpGo_false_of_reached (accounts : List Account) (accountKey : String) :
    ∀ (fuel : Nat) (visited : List String) (ck : Option String),
      (plainWalk accounts ck (fuel + 1)).Nodup →
      (∀ x ∈ plainWalk accounts ck (fuel + 1), x ∉ visited) →
      accountKey ∈ plainWalk accounts ck (fuel + 1) →
      vpGo accounts accountKey visited ck fuel = false := by
  intro fuel
  induction fuel with
  | zero =>
    intro visited ck hnd hdis hmem
    cases ck with
    | none => simp [plainWalk] at hmem
    | some c =>
      by_cases hc : c = ""
      · rw [plainWalk, if_pos hc] at hmem
        simp at hmem
      · rw [plainWalk, if_neg hc] at hmem
        have hke : accountKey = c := by
          rcases List.mem_cons.mp hmem with h | h
          · exact h
          · cases hfa : findAccount accounts c with
            | none => rw [hfa] at h; simp at h
            | some node => rw [hfa] at h; exact absurd h (by simp [plainWalk])
        rw [vpGo, if_neg hc, if_pos hke.symm]
  | succ f ih =>
    intro visited ck hnd hdis hmem
    cases ck with
    | none => simp [plainWalk] at hmem
    | some c =>
      by_cases hc : c = ""
      · rw [plainWalk, if_pos hc] at hmem
        simp at hmem
      · rw [plainWalk, if_neg hc] at hmem hnd hdis
        by_cases hke : c = accountKey
        · rw [vpGo, if_neg hc, if_pos hke]
        · have hmem' : accountKey ∈
              (match findAccount accounts c with
               | none => ([] : List String)
               | some node => plainWalk accounts node.parentAccountKey (f + 1)) := by
            rcases List.mem_cons.mp hmem with h | h
            · exact absurd h.symm hke
            · exact h
          cases hfa : findAccount accounts c with
          | none =>
            rw [hfa] at hmem'
            simp at hmem'
          | some node =>
            rw [hfa] at hmem' hnd hdis
            rw [vpGo, if_neg hc, if_neg hke,
                if_neg (hdis c (List.mem_cons_self _ _)), hfa]
            exact ih (c :: visited) node.parentAccountKey
              (List.nodup_cons.mp hnd).2
              (fun x hx hxin => by
                rcases List.mem_cons.mp hxin with rfl | hxv
                · exact (List.nodup_cons.mp hnd).1 hx
                · exact hdis x (List.mem_cons_of_mem c hx) hxv)
              hmem'

/-- C7: when `updateAccount` reassigns `parentAccountKey`, the cycle
validation rejects with `ValidationError` if the candidate account
equals the proposed parent, or if walking the ancestor chain starting
from the proposed parent's own parent reaches the candidate; it stops
without error whenever the candidate is not among the at most 101 keys
the capped walk can examine — in particular when a node repeats before
reaching the candidate, or when the candidate sits beyond the 100-hop
cap — and reassignment to an unrelated existing account succeeds. -/
theorem c7_validateParent (accs : List Account) (k p : String) :
    (k ≠ "" → ∃ m, validateParent accs k (some k) = .error (.validation m)) ∧
    (∀ parent, p ≠ "" → k ≠ p → findAccount accs p = some parent →
      ((plainWalk accs parent.parentAccountKey 101).Nodup →
        p ∉ plainWalk accs parent.parentAccountKey 101 →
        k ∈ plainWalk accs parent.parentAccountKey 101 →
        ∃ m, validateParent accs k (some p) = .error (.validation m)) ∧
      (k ∉ plainWalk accs parent.parentAccountKey 101 →
        validateParent accs k (some p) = .ok ())) ∧
    (∀ (db : DB) (d : UpdateAccountInput),
      db.accounts = accs → d.key = k → d.parentAccountKey = some (some p) →
      k ≠ "" → validateParent accs k (some p) = .ok () →
      (findAccount accs k).isSome = true →
      ∃ doc db', updateAccount d db = (db', .ok doc)) := by
  refine ⟨?_, ?_, ?_⟩
  · intro hk
    refine ⟨"Account cannot be its own parent", ?_⟩
    rw [validateParent, if_neg (by simp [strTruthy, hk])]
    show (if k = (some k).getD "" then _ else _) = _
    rw [if_pos (by simp)]
  · intro parent hp hkp hpar
    constructor
    · intro hnd hpn hkm
      refine ⟨"Circular dependency detected", ?_⟩
      rw [validateParent, if_neg (by simp [strTruthy, hp])]
      show (if k = (some p).getD "" then _ else _) = _
      rw [if_neg (by simpa using hkp)]
      show (match findAccount accs ((some p).getD "") with
            | none => _ | some parent => _) = _
      simp only [Option.getD_some]
      rw [hpar]
      have hfalse : vpGo accs k [p] parent.parentAccountKey 100 = false :=
        vpGo_false_of_reached accs k 100 [p] parent.parentAccountKey hnd
          (fun x hx hxin => hpn (by rwa [List.mem_singleton.mp hxin] at hx)) hkm
      show (if vpGo accs k [p] parent.parentAccountKey 100 = true
            then Except.ok () else Except.error (Err.validation "Circular dependency detected")) = _
      rw [if_neg (by rw [hfalse]; simp)]
    · intro hknm
      rw [validateParent, if_neg (by simp [strTruthy, hp])]
      show (if k = (some p).getD "" then _ else _) = _
      rw [if_neg (by simpa using hkp)]
      show (match findAccount accs ((some p).getD "") with
            | none => _ | some parent => _) = _
      simp only [Option.getD_some]
      rw [hpar]
      have htrue : vpGo accs k [p] parent.parentAccountKey 100 = true :=
        vpGo_ok_of_not_mem accs k 100 [p] parent.parentAccountKey hknm
      show (if vpGo accs k [p] parent.parentAccountKey 100 = true
            then Except.ok () else Except.error (Err.validation "Circular dependency detected")) = _
      rw [if_pos htrue]
  · intro db d hacc hdk hdpk hk hval hsome
    obtain ⟨a, ha⟩ := Option.isSome_iff_exists.mp hsome
    simp only [updateAccount, hdk, hdpk, hacc, hval, ha, hk, if_neg, ite_false,
      if_false, eq_self_iff_true]
    exact ⟨_, _, rfl⟩

theorem c7_witness :
    (∃ m, validateParent c7Accounts "A" (some "A") = .error (.validation m)) ∧
    (∃ m, validateParent c7Accounts "A" (some "C") = .error (.validation m)) ∧
    validateParent c7Accounts "A" (some "D") = .ok () ∧
    (∃ doc db', updateAccount c7Upd c7DB = (db', .ok doc)) := by
  have h3 : validateParent c7Accounts "A" (some "D") = .ok () :=
    (((c7_validateParent c7Accounts "A" "D").2.1 c7D (by decide) (by decide)
        (by rfl)).2 (by decide))
  refine ⟨?_, ?_, h3, ?_⟩
  · exact (c7_validateParent c7Accounts "A" "A").1 (by decide)
  · exact ((c7_validateParent c7Accounts "A" "C").2.1 c7C (by decide) (by decide)
      (by rfl)).1 (by decide) (by decide) (by decide)
  · exact (c7_validateParent c7Accounts "A" "D").2.2 c7DB c7Upd rfl rfl rfl
      (by decide) h3 (by decide)

/-! ## Claim C5: getAccountLedger -/

theorem ledgerAnnotate_map_entry (ty : AccountType) (pg : ParentGroup) :
    ∀ (bal : ℚ) (es : List Entry),
      (ledgerAnnotate ty pg bal es).map (·.entry) = es := by
  intro bal es
  induction es generalizing bal with
  | nil => rfl
  | cons e es ih => simp [ledgerAnnotate, ih]

theorem ledgerAnnotate_length (ty : AccountType) (pg : ParentGroup) :
    ∀ (bal : ℚ) (es : List Entry),
      (ledgerAnnotate ty pg bal es).length = es.length := by
  intro bal es
  induction es generalizing bal with
  | nil => rfl
  | cons e es ih => simp [ledgerAnnotate, ih]

theorem ledgerAnnotate_runningBalance (ty : AccountType) (pg : ParentGroup) :
    ∀ (es : List Entry) (bal : ℚ) (k : Nat) (h : k < (ledgerAnnotate ty pg bal es).length),
      ((ledgerAnnotate ty pg bal es).get ⟨k, h⟩).runningBalance
        = List.foldl (fun b e => jround (b + getNetBalance e.debit e.credit ty pg))
            bal (es.take (k + 1)) := by
  intro es
  induction es with
  | nil => intro bal k h; simp [ledgerAnnotate] at h
  | cons e es ih =>
    intro bal k h
    cases k with
    | zero => simp [ledgerAnnotate]
    | succ k =>
      have h' : k < (ledgerAnnotate ty pg
          (jround (bal + getNetBalance e.debit e.credit ty pg)) es).length := by
        rw [ledgerAnnotate_length] at h ⊢
        simpa using Nat.lt_of_succ_lt_succ h
      calc ((ledgerAnnotate ty pg bal (e :: es)).get ⟨k + 1, h⟩).runningBalance
          = ((ledgerAnnotate ty pg (jround (bal + getNetBalance e.debit e.credit ty pg)) es).get
              ⟨k, h'⟩).runningBalance := rfl
        _ = List.foldl (fun b x => jround (b + getNetBalance x.debit x.credit ty pg))
              (jround (bal + getNetBalance e.debit e.credit ty pg)) (es.take (k + 1)) :=
            ih _ k h'
        _ = List.foldl (fun b x => jround (b + getNetBalance x.debit x.credit ty pg))
              bal ((e :: es).take (k + 1 + 1)) := by
            rw [List.take_succ_cons, List.foldl_cons]

theorem getAccountBalance_ok_of_found {q : BalanceQuery} {db : DB} {a : Account}
    (ha : findAccount db.accounts q.accountKey = some a) :
    ∃ b, getAccountBalance q db = .ok b := by
  rw [getAccountBalance]
  by_cases hmt : (db.entries.filter (entryMatches q)).isEmpty = true
  · rw [if_pos hmt]
    exact ⟨_, rfl⟩
  · rw [if_neg hmt]
    rw [ha]
    exact ⟨_, rfl⟩

theorem entryMatches_voided {q : BalanceQuery} {e : Entry}
    (h : entryMatches q e = true) : e.voided = false := by
  unfold entryMatches at h
  simp only [Bool.and_eq_true, beq_iff_eq] at h
  exact h.1.1.1.2

/-- C5: `getAccountLedger(account, range, page, pageSize)` computes the
opening balance as the account's balance strictly before `from`
(`getAccountBalance` with `to = from − 1`), returns the page of matching
non-voided entries ordered by datetime ascending with insertion order as
tie-break, and for every prefix of the returned page the runningBalance
of the last entry equals the opening balance plus the sum of netChange
over that prefix, netChange being rounded debit−credit for a
debit-normal account (credit−debit otherwise) and the accumulation
rounded at each fold step. -/
theorem c5_getAccountLedger (q : LedgerQuery) (db : DB) (f : Int) (a : Account)
    (hf : q.fromD = some f) (ha : findAccount db.accounts q.accountKey = some a) :
    ∃ (res : LedgerResult) (ob : BalanceResult),
      getAccountLedger q db = .ok res ∧
      getAccountBalance (ledgerPreQuery q f) db = .ok ob ∧
      res.items.map (·.entry) = ledgerPage q db f ∧
      res.total = (db.entries.filter (entryMatches (ledgerMatchQuery q f))).length ∧
      List.Pairwise entryLE (res.items.map (·.entry)) ∧
      (∀ it ∈ res.items, it.entry.voided = false) ∧
      (∀ (k : Nat) (h : k < res.items.length),
        (res.items.get ⟨k, h⟩).runningBalance
          = List.foldl (fun b e => jround (b + getNetBalance e.debit e.credit a.ty a.parentGroup))
              ob.balance ((res.items.map (·.entry)).take (k + 1))) := by
  obtain ⟨ob, hob⟩ := @getAccountBalance_ok_of_found (ledgerPreQuery q f) db a ha
  have hrun : getAccountLedger q db
      = .ok { items := ledgerAnnotate a.ty a.parentGroup ob.balance (ledgerPage q db f),
              total := (db.entries.filter (entryMatches (ledgerMatchQuery q f))).length,
              page := orDefault q.page 1, pageSize := orDefault q.pageSize 50 } := by
    rw [getAccountLedger, hf]
    dsimp only
    rw [show ({ accountKey := q.accountKey, fromD := none, toD := some (f - 1),
                metaFilter := q.metaFilter } : BalanceQuery) = ledgerPreQuery q f from rfl,
        hob]
    dsimp only [Except.map]
    rw [ha]
    rfl
  refine ⟨_, ob, hrun, hob, ?_, ?_, ?_, ?_, ?_⟩
  · exact ledgerAnnotate_map_entry a.ty a.parentGroup ob.balance _
  · rfl
  · rw [ledgerAnnotate_map_entry]
    exact ((List.sorted_insertionSort entryLE
        (db.entries.filter (entryMatches (ledgerMatchQuery q f)))).sublist
      ((List.take_sublist _ _).trans (List.drop_sublist _ _)))
  · intro it hit
    have hmem : it.entry ∈ ledgerPage q db f := by
      rw [← ledgerAnnotate_map_entry a.ty a.parentGroup ob.balance (ledgerPage q db f)]
      exact List.mem_map_of_mem _ hit
    have hmem2 : it.entry ∈ (db.entries.filter
        (entryMatches (ledgerMatchQuery q f))).insertionSort entryLE :=
      ((List.take_sublist _ _).trans (List.drop_sublist _ _)).subset hmem
    have hmem3 := (List.perm_insertionSort entryLE _).subset hmem2
    exact entryMatches_voided (List.mem_filter.mp hmem3).2
  · intro k hk
    rw [ledgerAnnotate_map_entry]
    exact ledgerAnnotate_runningBalance a.ty a.parentGroup _ ob.balance k hk

theorem c5_witness :
    ∃ (res : LedgerResult) (ob : BalanceResult),
      getAccountLedger c5Q c5DB = .ok res ∧
      getAccountBalance (ledgerPreQuery c5Q 7) c5DB = .ok ob ∧
      res.items.map (·.entry) = ledgerPage c5Q c5DB 7 ∧
      res.total = (c5DB.entries.filter (entryMatches (ledgerMatchQuery c5Q 7))).length ∧
      List.Pairwise entryLE (res.items.map (·.entry)) ∧
      (∀ it ∈ res.items, it.entry.voided = false) ∧
      (∀ (k : Nat) (h : k < res.items.length),
        (res.items.get ⟨k, h⟩).runningBalance
          = List.foldl
              (fun b e => jround (b + getNetBalance e.debit e.credit c5Acct.ty c5Acct.parentGroup))
              ob.balance ((res.items.map (·.entry)).take (k + 1))) :=
  c5_getAccountLedger c5Q c5DB 7 c5Acct rfl rfl

/-! ## Claim C3: getTrialBalance -/

theorem sum_map_filterMap_eq {K B : Type} (g : B → ℚ) (gk : K → ℚ) (F : K → Option B) :
    ∀ (keys : List K), (∀ k ∈ keys, ∃ b, F k = some b ∧ g b = gk k) →
      ((keys.filterMap F).map g).sum = (keys.map gk).sum := by
  intro keys
  induction keys with
  | nil => intro _; rfl
  | cons k ks ih =>
    intro h
    obtain ⟨b, hb, hgb⟩ := h k (by simp)
    rw [List.filterMap_cons, hb]
    simp only [List.map_cons, List.sum_cons]
    rw [hgb, ih (fun k' hk' => h k' (by simp [hk']))]

/-- C3 (amended): whenever all matched non-voided postings in the
queried range are balanced per journal, every matched entry's amounts
are whole multiples of 0.01 and every matched entry's account key has an
account record (unknown keys are silently skipped by the grouping),
`getTrialBalance(range)` returns `totalDebit` equal to `totalCredit`. -/
theorem c3_getTrialBalance (q : TrialBalanceQuery) (db : DB)
    (hcents : ∀ e ∈ db.entries.filter (tbMatches q), IsCents e.debit ∧ IsCents e.credit)
    (hres : ∀ e ∈ db.entries.filter (tbMatches q),
      (findAccountMap db.accounts e.accountKey).isSome = true)
    (hbal : ∀ jid : Nat,
      (((db.entries.filter (tbMatches q)).filter
          (fun e => decide (e.journalId = jid))).map (fun e => e.debit)).sum
        = (((db.entries.filter (tbMatches q)).filter
            (fun e => decide (e.journalId = jid))).map (fun e => e.credit)).sum) :
    (getTrialBalance q db).totalDebit = (getTrialBalance q db).totalCredit := by
  have hkeymem : ∀ k ∈ ((db.entries.filter (tbMatches q)).map (fun e => e.accountKey)).dedup,
      (findAccountMap db.accounts k).isSome = true := by
    intro k hk
    obtain ⟨e, he, rfl⟩ := List.mem_map.mp (List.mem_dedup.mp hk)
    exact hres e he
  have hcsum : ∀ (f : Entry → ℚ), (∀ e ∈ db.entries.filter (tbMatches q), IsCents (f e)) →
      ∀ k : String, IsCents (((db.entries.filter (tbMatches q)).filter
        (fun e => decide (e.accountKey = k))).map f).sum := by
    intro f hf k
    apply IsCents.listSum
    intro x hx
    obtain ⟨e, he, rfl⟩ := List.mem_map.mp hx
    exact hf e (List.mem_filter.mp he).1
  have hDrow : ∀ k ∈ ((db.entries.filter (tbMatches q)).map (fun e => e.accountKey)).dedup,
      ∃ b, tbRow db (db.entries.filter (tbMatches q)) k = some b ∧
        b.debit = jround (sumDebitFor (db.entries.filter (tbMatches q)) k) := by
    intro k hk
    obtain ⟨a, ha⟩ := Option.isSome_iff_exists.mp (hkeymem k hk)
    refine ⟨{ accountKey := k, accountCode := a.code, accountName := a.name,
              debit := jround (sumDebitFor (db.entries.filter (tbMatches q)) k),
              credit := jround (sumCreditFor (db.entries.filter (tbMatches q)) k),
              balance := getNetBalance
                (jround (sumDebitFor (db.entries.filter (tbMatches q)) k))
                (jround (sumCreditFor (db.entries.filter (tbMatches q)) k))
                a.ty a.parentGroup }, ?_, rfl⟩
    rw [tbRow, ha]
  have hCrow : ∀ k ∈ ((db.entries.filter (tbMatches q)).map (fun e => e.accountKey)).dedup,
      ∃ b, tbRow db (db.entries.filter (tbMatches q)) k = some b ∧
        b.credit = jround (sumCreditFor (db.entries.filter (tbMatches q)) k) := by
    intro k hk
    obtain ⟨a, ha⟩ := Option.isSome_iff_exists.mp (hkeymem k hk)
    refine ⟨{ accountKey := k, accountCode := a.code, accountName := a.name,
              debit := jround (sumDebitFor (db.entries.filter (tbMatches q)) k),
              credit := jround (sumCreditFor (db.entries.filter (tbMatches q)) k),
              balance := getNetBalance
                (jround (sumDebitFor (db.entries.filter (tbMatches q)) k))
                (jround (sumCreditFor (db.entries.filter (tbMatches q)) k))
                a.ty a.parentGroup }, ?_, rfl⟩
    rw [tbRow, ha]
  have hD := sum_map_filterMap_eq (fun r => r.debit)
    (fun k => jround (sumDebitFor (db.entries.filter (tbMatches q)) k))
    (tbRow db (db.entries.filter (tbMatches q)))
    (((db.entries.filter (tbMatches q)).map (fun e => e.accountKey)).dedup) hDrow
  have hC := sum_map_filterMap_eq (fun r => r.credit)
    (fun k => jround (sumCreditFor (db.entries.filter (tbMatches q)) k))
    (tbRow db (db.entries.filter (tbMatches q)))
    (((db.entries.filter (tbMatches q)).map (fun e => e.accountKey)).dedup) hCrow
  have hDid : (((db.entries.filter (tbMatches q)).map (fun e => e.accountKey)).dedup.map
      (fun k => jround (sumDebitFor (db.entries.filter (tbMatches q)) k))).sum
      = (((db.entries.filter (tbMatches q)).map (fun e => e.accountKey)).dedup.map
        (fun k => sumDebitFor (db.entries.filter (tbMatches q)) k)).sum := by
    apply congrArg List.sum
    apply List.map_congr_left
    intro k _
    exact jround_cents (hcsum (fun e => e.debit) (fun e he => (hcents e he).1) k)
  have hCid : (((db.entries.filter (tbMatches q)).map (fun e => e.accountKey)).dedup.map
      (fun k => jround (sumCreditFor (db.entries.filter (tbMatches q)) k))).sum
      = (((db.entries.filter (tbMatches q)).map (fun e => e.accountKey)).dedup.map
        (fun k => sumCreditFor (db.entries.filter (tbMatches q)) k)).sum := by
    apply congrArg List.sum
    apply List.map_congr_left
    intro k _
    exact jround_cents (hcsum (fun e => e.credit) (fun e he => (hcents e he).2) k)
  have hDpart := sum_partition_dedup (fun e : Entry => e.accountKey) (fun e => e.debit)
    (db.entries.filter (tbMatches q))
  have hCpart := sum_partition_dedup (fun e : Entry => e.accountKey) (fun e => e.credit)
    (db.entries.filter (tbMatches q))
  have hgrand := sum_eq_of_groups_balanced (fun e : Entry => e.journalId)
    (fun e => e.debit) (fun e => e.credit) (db.entries.filter (tbMatches q)) hbal
  unfold getTrialBalance
  dsimp only
  rw [hD, hC, hDid, hCid]
  unfold sumDebitFor sumCreditFor
  rw [hDpart, hCpart, hgrand]

theorem c3match : c3DB.entries.filter (tbMatches c3Q) = c3DB.entries := by
  simp only [c3DB, c3Q, tbMatches, List.filter_cons, List.filter_nil]
  rfl

theorem c3keys : ((c3DB.entries.filter (tbMatches c3Q)).map (fun e => e.accountKey)).dedup
    = ["A1", "A2", "A3"] := by
  rw [c3match]
  simp only [c3DB, List.map_cons, List.map_nil]
  decide

theorem c3match2 : c3DB2.entries.filter (tbMatches c3Q) = c3DB2.entries := by
  simp only [c3DB2, c3Q, tbMatches, List.filter_cons, List.filter_nil]
  rfl

theorem c3keys2 : ((c3DB2.entries.filter (tbMatches c3Q)).map (fun e => e.accountKey)).dedup
    = ["GHOST", "A1"] := by
  rw [c3match2]
  simp only [c3DB2, List.map_cons, List.map_nil]
  decide

/-- C3 counterexample: in both stores every non-voided posting in range
is a balanced journal (debits equal credits exactly, over the single
journal 1), yet the trial balance totals differ: per-account 2-decimal
rounding of sub-cent amounts breaks the equality in the first store, and
an entry whose account key has no account record is silently dropped
from the grand totals in the second. -/
theorem c3_counterexample :
    ((c3DB.entries.map (fun e => e.debit)).sum = (c3DB.entries.map (fun e => e.credit)).sum) ∧
    c3DB.entries.all (fun e => !e.voided && (e.journalId == 1)) = true ∧
    (getTrialBalance c3Q c3DB).totalDebit = 0 ∧
    (getTrialBalance c3Q c3DB).totalCredit = 1/100 ∧
    ((0 : ℚ) = 1/100 → False) ∧
    ((c3DB2.entries.map (fun e => e.debit)).sum = (c3DB2.entries.map (fun e => e.credit)).sum) ∧
    c3DB2.entries.all (fun e => !e.voided && (e.journalId == 1)) = true ∧
    (getTrialBalance c3Q c3DB2).totalDebit = 0 ∧
    (getTrialBalance c3Q c3DB2).totalCredit = 5 ∧
    ((0 : ℚ) = 5 → False) := by
  refine ⟨?_, ?_, ?_, ?_, by norm_num, ?_, ?_, ?_, ?_, by norm_num⟩
  · norm_num [c3DB]
  · rfl
  · unfold getTrialBalance
    dsimp only
    rw [c3keys, c3match]
    simp only [List.filterMap_cons, List.filterMap_nil, tbRow, findAccountMap, c3DB,
      c3A1, c3A2, c3A3, List.foldl_cons, List.foldl_nil, sumDebitFor, sumCreditFor,
      List.filter_cons, List.filter_nil, List.map_cons, List.map_nil, List.sum_cons,
      List.sum_nil, String.reduceEq, if_true, if_false, ite_true, ite_false]
    norm_num [jround]
  · unfold getTrialBalance
    dsimp only
    rw [c3keys, c3match]
    simp only [List.filterMap_cons, List.filterMap_nil, tbRow, findAccountMap, c3DB,
      c3A1, c3A2, c3A3, List.foldl_cons, List.foldl_nil, sumDebitFor, sumCreditFor,
      List.filter_cons, List.filter_nil, List.map_cons, List.map_nil, List.sum_cons,
      List.sum_nil, String.reduceEq, if_true, if_false, ite_true, ite_false]
    norm_num [jround]
  · norm_num [c3DB2]
  · rfl
  · unfold getTrialBalance
    dsimp only
    rw [c3keys2, c3match2]
    simp only [List.filterMap_cons, List.filterMap_nil, tbRow, findAccountMap, c3DB2,
      c3A1, List.foldl_cons, List.foldl_nil, sumDebitFor, sumCreditFor,
      List.filter_cons, List.filter_nil, List.map_cons, List.map_nil, List.sum_cons,
      List.sum_nil, String.reduceEq, if_true, if_false, ite_true, ite_false]
    norm_num [jround]
  · unfold getTrialBalance
    dsimp only
    rw [c3keys2, c3match2]
    simp only [List.filterMap_cons, List.filterMap_nil, tbRow, findAccountMap, c3DB2,
      c3A1, List.foldl_cons, List.foldl_nil, sumDebitFor, sumCreditFor,
      List.filter_cons, List.filter_nil, List.map_cons, List.map_nil, List.sum_cons,
      List.sum_nil, String.reduceEq, if_true, if_false, ite_true, ite_false]
    norm_num [jround]

theorem c3_witness :
    (getTrialBalance c3Q c3WDB).totalDebit = (getTrialBalance c3Q c3WDB).totalCredit := by
  apply c3_getTrialBalance
  · intro e he
    have he' : e ∈ c3WDB.entries := List.mem_of_mem_filter he
    simp only [c3WDB, List.mem_cons, List.not_mem_nil, or_false] at he'
    rcases he' with rfl | rfl
    · exact ⟨⟨500, by norm_num⟩, ⟨0, by norm_num⟩⟩
    · exact ⟨⟨0, by norm_num⟩, ⟨500, by norm_num⟩⟩
  · intro e he
    have he' : e ∈ c3WDB.entries := List.mem_of_mem_filter he
    simp only [c3WDB, List.mem_cons, List.not_mem_nil, or_false] at he'
    rcases he' with rfl | rfl <;> decide
  · intro jid
    rw [show c3WDB.entries.filter (tbMatches c3Q) = c3WDB.entries by
      simp only [c3WDB, c3Q, tbMatches, List.filter_cons, List.filter_nil]; rfl]
    by_cases hj : jid = 1
    · subst hj
      simp only [c3WDB, List.filter_cons, List.filter_nil, List.map_cons, List.map_nil,
        List.sum_cons, List.sum_nil]
      norm_num
    · have hj' : ((1 : Nat) = jid) = False := by
        simp [eq_comm, hj]
      simp only [c3WDB, List.filter_cons, List.filter_nil, hj', decide_False,
        Bool.false_eq_true, if_false, List.map_nil, List.sum_nil]

/-! ## Claim C2: getBalanceSheet -/

theorem findAccountMap_some_aux {k : String} {a : Account} :
    ∀ (accounts : List Account) (init : Option Account),
      accounts.foldl (fun acc x => if x.key = k then some x else acc) init = some a →
      (a ∈ accounts ∧ a.key = k) ∨ init = some a := by
  intro accounts
  induction accounts with
  | nil => intro init h; exact Or.inr h
  | cons x xs ih =>
    intro init h
    rw [List.foldl_cons] at h
    rcases ih _ h with ⟨hm, hk⟩ | hinit
    · exact Or.inl ⟨List.mem_cons_of_mem _ hm, hk⟩
    · by_cases hx : x.key = k
      · rw [if_pos hx] at hinit
        injection hinit with h'
        exact Or.inl ⟨by rw [← h']; exact List.mem_cons_self _ _, by rw [← h']; exact hx⟩
      · rw [if_neg hx] at hinit
        exact Or.inr hinit

theorem findAccountMap_some {accounts : List Account} {k : String} {a : Account}
    (h : findAccountMap accounts k = some a) : a ∈ accounts ∧ a.key = k := by
  rcases findAccountMap_some_aux accounts none h with hm | hn
  · exact hm
  · exact Option.noConfusion hn

theorem bsStep_measure (db : DB) (matched : List Entry) (acc : BSAcc) (k : String) :
    bsMeasure (bsStep db matched acc k) = bsMeasure acc + bsSigned db matched k := by
  unfold bsStep bsSigned
  cases findAccountMap db.accounts k with
  | none => simp [bsMeasure]
  | some a =>
    cases hpg : a.parentGroup <;> simp only [hpg, bsMeasure] <;> ring

theorem bsFold_measure (db : DB) (matched : List Entry) :
    ∀ (keys : List String) (acc : BSAcc),
      bsMeasure (keys.foldl (bsStep db matched) acc)
        = bsMeasure acc + (keys.map (bsSigned db matched)).sum := by
  intro keys
  induction keys with
  | nil => intro acc; simp
  | cons k ks ih =>
    intro acc
    rw [List.foldl_cons, ih, bsStep_measure]
    simp only [List.map_cons, List.sum_cons]
    ring

theorem bsStep_cents (db : DB) (matched : List Entry) (k : String) {acc : BSAcc}
    (h : IsCents acc.totalAssets ∧ IsCents acc.totalLiab ∧
      IsCents acc.totalEquity ∧ IsCents acc.netIncome) :
    IsCents (bsStep db matched acc k).totalAssets ∧
    IsCents (bsStep db matched acc k).totalLiab ∧
    IsCents (bsStep db matched acc k).totalEquity ∧
    IsCents (bsStep db matched acc k).netIncome := by
  obtain ⟨h1, h2, h3, h4⟩ := h
  unfold bsStep
  cases findAccountMap db.accounts k with
  | none => exact ⟨h1, h2, h3, h4⟩
  | some a =>
    have hnet : ∀ pg, IsCents (getNetBalance (sumDebitFor matched k) (sumCreditFor matched k)
        a.ty pg) := by
      intro pg
      unfold getNetBalance
      split_ifs <;> exact jround_isCents _
    cases hpg : a.parentGroup <;> simp only [hpg]
    · exact ⟨h1.add (hnet _), h2, h3, h4⟩
    · exact ⟨h1, h2.add (hnet _), h3, h4⟩
    · exact ⟨h1, h2, h3.add (hnet _), h4⟩
    · exact ⟨h1, h2, h3, h4.add (hnet _)⟩
    · exact ⟨h1, h2, h3, h4.sub (hnet _)⟩

theorem bsFold_cents (db : DB) (matched : List Entry) :
    ∀ (keys : List String) (acc : BSAcc),
      (IsCents acc.totalAssets ∧ IsCents acc.totalLiab ∧
        IsCents acc.totalEquity ∧ IsCents acc.netIncome) →
      IsCents (keys.foldl (bsStep db matched) acc).totalAssets ∧
      IsCents (keys.foldl (bsStep db matched) acc).totalLiab ∧
      IsCents (keys.foldl (bsStep db matched) acc).totalEquity ∧
      IsCents (keys.foldl (bsStep db matched) acc).netIncome := by
  intro keys
  induction keys with
  | nil => intro acc h; exact h
  | cons k ks ih =>
    intro acc h
    rw [List.foldl_cons]
    exact ih _ (bsStep_cents db matched k h)

theorem sum_map_sub {α : Type} (l : List α) (f g : α → ℚ) :
    (l.map (fun x => f x - g x)).sum = (l.map f).sum - (l.map g).sum := by
  induction l with
  | nil => simp
  | cons x xs ih =>
    simp only [List.map_cons, List.sum_cons, ih]
    ring

theorem bsSigned_eq {db : DB} {matched : List Entry} {k : String} {a : Account}
    (ha : findAccountMap db.accounts k = some a)
    (hnc : ¬(a.ty = AccountType.contra ∧ a.parentGroup = ParentGroup.liability))
    (hd : IsCents (sumDebitFor matched k)) (hc : IsCents (sumCreditFor matched k)) :
    bsSigned db matched k = sumDebitFor matched k - sumCreditFor matched k := by
  unfold bsSigned
  rw [ha]
  cases hpg : a.parentGroup <;> simp only [hpg]
  · rw [getNetBalance, if_pos (by simp [isDebitNormal]), jround_cents (hd.sub hc)]
  · have hty : ¬(a.ty = AccountType.contra) := fun h => hnc ⟨h, hpg⟩
    rw [getNetBalance, if_neg (by simp [isDebitNormal, hty]), jround_cents (hc.sub hd)]
    ring
  · rw [getNetBalance, if_neg (by simp [isDebitNormal]), jround_cents (hc.sub hd)]
    ring
  · rw [getNetBalance, if_neg (by simp [isDebitNormal]), jround_cents (hc.sub hd)]
    ring
  · rw [getNetBalance, if_pos (by simp [isDebitNormal]), jround_cents (hd.sub hc)]

/-- C2 (amended): for every set of persisted entries in which every
non-voided journal's entries up to `asOf` are balanced (debits equal
credits), all amounts are whole multiples of 0.01, every matched entry's
account key has an account record, and the chart contains no
contra-liability accounts (contra-asset accounts are fine),
`getBalanceSheet(asOf)` returns assets = liabilities + equity, net
income having been folded into the equity total as calculated retained
earnings. -/
theorem c2_getBalanceSheet (asOf : Int) (db : DB)
    (hcents : ∀ e ∈ db.entries.filter (fun e =>
        (e.voided == false) && decide (e.datetime ≤ asOf)),
      IsCents e.debit ∧ IsCents e.credit)
    (hres : ∀ e ∈ db.entries.filter (fun e =>
        (e.voided == false) && decide (e.datetime ≤ asOf)),
      (findAccountMap db.accounts e.accountKey).isSome = true)
    (hnc : ∀ a ∈ db.accounts,
      ¬(a.ty = AccountType.contra ∧ a.parentGroup = ParentGroup.liability))
    (hbal : ∀ jid : Nat,
      (((db.entries.filter (fun e => (e.voided == false) && decide (e.datetime ≤ asOf))).filter
          (fun e => decide (e.journalId = jid))).map (fun e => e.debit)).sum
        = (((db.entries.filter (fun e =>
              (e.voided == false) && decide (e.datetime ≤ asOf))).filter
            (fun e => decide (e.journalId = jid))).map (fun e => e.credit)).sum) :
    (getBalanceSheet asOf db).assets
      = (getBalanceSheet asOf db).liabilities + (getBalanceSheet asOf db).equity := by
  have hcsum : ∀ (f : Entry → ℚ),
      (∀ e ∈ db.entries.filter (fun e => (e.voided == false) && decide (e.datetime ≤ asOf)),
        IsCents (f e)) →
      ∀ k : String, IsCents
        (((db.entries.filter (fun e =>
            (e.voided == false) && decide (e.datetime ≤ asOf))).filter
          (fun e => decide (e.accountKey = k))).map f).sum := by
    intro f hf k
    apply IsCents.listSum
    intro x hx
    obtain ⟨e, he, rfl⟩ := List.mem_map.mp hx
    exact hf e (List.mem_filter.mp he).1
  unfold getBalanceSheet
  dsimp only
  have hsig : ((((db.entries.filter (fun e =>
      (e.voided == false) && decide (e.datetime ≤ asOf))).map
        (fun e => e.accountKey)).dedup).map
      (bsSigned db (db.entries.filter (fun e =>
        (e.voided == false) && decide (e.datetime ≤ asOf))))).sum = 0 := by
    have h1 : ∀ k ∈ ((db.entries.filter (fun e =>
        (e.voided == false) && decide (e.datetime ≤ asOf))).map (fun e => e.accountKey)).dedup,
        bsSigned db (db.entries.filter (fun e =>
          (e.voided == false) && decide (e.datetime ≤ asOf))) k
          = sumDebitFor (db.entries.filter (fun e =>
              (e.voided == false) && decide (e.datetime ≤ asOf))) k
            - sumCreditFor (db.entries.filter (fun e =>
              (e.voided == false) && decide (e.datetime ≤ asOf))) k := by
      intro k hk
      obtain ⟨e, he, rfl⟩ := List.mem_map.mp (List.mem_dedup.mp hk)
      obtain ⟨a, ha⟩ := Option.isSome_iff_exists.mp (hres e he)
      exact bsSigned_eq ha (hnc a (findAccountMap_some ha).1)
        (hcsum (fun e => e.debit) (fun e he => (hcents e he).1) e.accountKey)
        (hcsum (fun e => e.credit) (fun e he => (hcents e he).2) e.accountKey)
    rw [List.map_congr_left h1]
    have h2 : ((((db.entries.filter (fun e =>
        (e.voided == false) && decide (e.datetime ≤ asOf))).map
          (fun e => e.accountKey)).dedup).map (fun k =>
        sumDebitFor (db.entries.filter (fun e =>
          (e.voided == false) && decide (e.datetime ≤ asOf))) k
          - sumCreditFor (db.entries.filter (fun e =>
            (e.voided == false) && decide (e.datetime ≤ asOf))) k)).sum
        = (((db.entries.filter (fun e => (e.voided == false) && decide (e.datetime ≤ asOf))).map
            (fun e => e.debit)).sum)
          - (((db.entries.filter (fun e =>
              (e.voided == false) && decide (e.datetime ≤ asOf))).map
            (fun e => e.credit)).sum) := by
      rw [sum_map_sub]
      unfold sumDebitFor sumCreditFor
      rw [sum_partition_dedup (fun e : Entry => e.accountKey) (fun e => e.debit),
          sum_partition_dedup (fun e : Entry => e.accountKey) (fun e => e.credit)]
    rw [h2, sum_eq_of_groups_balanced (fun e : Entry => e.journalId)
      (fun e => e.debit) (fun e => e.credit) _ hbal, sub_self]
  have hM := bsFold_measure db
    (db.entries.filter (fun e => (e.voided == false) && decide (e.datetime ≤ asOf)))
    (((db.entries.filter (fun e =>
      (e.voided == false) && decide (e.datetime ≤ asOf))).map (fun e => e.accountKey)).dedup)
    { assetsB := [], liabB := [], equityB := [],
      totalAssets := 0, totalLiab := 0, totalEquity := 0, netIncome := 0 }
  rw [hsig] at hM
  have hM0 : bsMeasure ((((db.entries.filter (fun e =>
      (e.voided == false) && decide (e.datetime ≤ asOf))).map
        (fun e => e.accountKey)).dedup).foldl
      (bsStep db (db.entries.filter (fun e =>
        (e.voided == false) && decide (e.datetime ≤ asOf))))
      { assetsB := [], liabB := [], equityB := [],
        totalAssets := 0, totalLiab := 0, totalEquity := 0, netIncome := 0 }) = 0 := by
    rw [hM]
    simp [bsMeasure]
  obtain ⟨cA, cL, cE, cN⟩ := bsFold_cents db
    (db.entries.filter (fun e => (e.voided == false) && decide (e.datetime ≤ asOf)))
    (((db.entries.filter (fun e =>
      (e.voided == false) && decide (e.datetime ≤ asOf))).map (fun e => e.accountKey)).dedup)
    { assetsB := [], liabB := [], equityB := [],
      totalAssets := 0, totalLiab := 0, totalEquity := 0, netIncome := 0 }
    ⟨IsCents.zero, IsCents.zero, IsCents.zero, IsCents.zero⟩
  rw [jround_cents cA, jround_cents cL, jround_cents (cE.add cN)]
  unfold bsMeasure at hM0
  linarith

/-- C2 counterexample: in all three stores every non-voided journal is
balanced exactly (a single journal whose debits equal credits), yet
`assets = liabilities + equity` fails: the debit-normal net balance of a
contra-liability account is added to the liabilities total instead of
subtracted; sub-cent amounts round differently across groupings; and an
entry on an unknown account key is silently dropped. -/
theorem c2_counterexample :
    ((c2DB.entries.map (fun e => e.debit)).sum = (c2DB.entries.map (fun e => e.credit)).sum) ∧
    c2DB.entries.all (fun e => !e.voided && (e.journalId == 1)) = true ∧
    (getBalanceSheet 0 c2DB).assets = -100 ∧
    (getBalanceSheet 0 c2DB).liabilities = 100 ∧
    (getBalanceSheet 0 c2DB).equity = 0 ∧
    (((-100 : ℚ) = 100 + 0) → False) ∧
    ((c2DBb.entries.map (fun e => e.debit)).sum = (c2DBb.entries.map (fun e => e.credit)).sum) ∧
    (getBalanceSheet 0 c2DBb).assets = 0 ∧
    (getBalanceSheet 0 c2DBb).liabilities + (getBalanceSheet 0 c2DBb).equity = 1/100 ∧
    (((0 : ℚ) = 1/100) → False) ∧
    ((c2DBc.entries.map (fun e => e.debit)).sum = (c2DBc.entries.map (fun e => e.credit)).sum) ∧
    (getBalanceSheet 0 c2DBc).assets = 5 ∧
    (getBalanceSheet 0 c2DBc).liabilities + (getBalanceSheet 0 c2DBc).equity = 0 ∧
    (((5 : ℚ) = 0) → False) := by
  refine ⟨by norm_num [c2DB], rfl, ?_, ?_, ?_, by norm_num, by norm_num [c2DBb],
    ?_, ?_, by norm_num, by norm_num [c2DBc], ?_, ?_, by norm_num⟩ <;>
  · simp [getBalanceSheet, c2DB, c2DBb, c2DBc, c2Cash, c2CL, c2Rev, c3A1, c3A2,
      List.filter_cons, List.filter_nil]
    try rw [show (["CL", "CASH"] : List String).dedup = ["CL", "CASH"] from by decide]
    try rw [show (["A1", "A2", "REV"] : List String).dedup = ["A1", "A2", "REV"] from by decide]
    try rw [show (["CASH", "GHOST"] : List String).dedup = ["CASH", "GHOST"] from by decide]
    simp [c2DB, c2DBb, c2DBc, c2Cash, c2CL, c2Rev, c3A1, c3A2,
      List.foldl_cons, List.foldl_nil, bsStep, findAccountMap,
      sumDebitFor, sumCreditFor, getNetBalance, isDebitNormal, groupLabel, setBreakdown,
      List.filter_cons, List.filter_nil]
    norm_num [jround]

theorem c2_witness :
    (getBalanceSheet 0 c3WDB).assets
      = (getBalanceSheet 0 c3WDB).liabilities + (getBalanceSheet 0 c3WDB).equity := by
  apply c2_getBalanceSheet
  · intro e he
    have he' : e ∈ c3WDB.entries := List.mem_of_mem_filter he
    simp only [c3WDB, List.mem_cons, List.not_mem_nil, or_false] at he'
    rcases he' with rfl | rfl
    · exact ⟨⟨500, by norm_num⟩, ⟨0, by norm_num⟩⟩
    · exact ⟨⟨0, by norm_num⟩, ⟨500, by norm_num⟩⟩
  · intro e he
    have he' : e ∈ c3WDB.entries := List.mem_of_mem_filter he
    simp only [c3WDB, List.mem_cons, List.not_mem_nil, or_false] at he'
    rcases he' with rfl | rfl <;> decide
  · intro a ha
    have ha' : a ∈ c3WDB.accounts := ha
    simp only [c3WDB, List.mem_cons, List.not_mem_nil, or_false] at ha'
    rcases ha' with rfl | rfl <;> decide
  · intro jid
    rw [show c3WDB.entries.filter (fun e =>
        (e.voided == false) && decide (e.datetime ≤ (0 : Int))) = c3WDB.entries by
      simp only [c3WDB, List.filter_cons, List.filter_nil]; rfl]
    by_cases hj : jid = 1
    · subst hj
      simp only [c3WDB, List.filter_cons, List.filter_nil, List.map_cons, List.map_nil,
        List.sum_cons, List.sum_nil]
      norm_num
    · have hj' : ((1 : Nat) = jid) = False := by
        simp [eq_comm, hj]
      simp only [c3WDB, List.filter_cons, List.filter_nil, hj', decide_False,
        Bool.false_eq_true, if_false, List.map_nil, List.sum_nil]

/-! ## Claim C8: applyOpeningBalance -/

/-- C8: for the active asset/asset account CASH and the default equity
offset account, `applyOpeningBalance(CASH, 500)` voids the prior active
opening-balance journal for CASH (and its entries) and posts a 2-line
journal with CASH debited 500 and the offset account credited 500,
after which `getAccountBalance(CASH)` returns
`{debit: 500, credit: 0, balance: 500}`; for an amount that rounds to
zero, no journal is posted and the result is null. -/
theorem c8_applyOpeningBalance :
    applyOpeningBalance c8In c8DB = (c8DBAfter, .ok (some c8PR)) ∧
    c8DBAfter.journals.map (fun j => (j.id, j.voided)) = [(1, true), (4, false)] ∧
    getAccountBalance { accountKey := "CASH", fromD := none, toD := none, metaFilter := none }
        c8DBAfter = .ok { balance := 500, debit := 500, credit := 0 } ∧
    (applyOpeningBalance c8InZero c8DB).2 = .ok none ∧
    (applyOpeningBalance c8InZero c8DB).1.journals.length = c8DB.journals.length := by
  have hk1 : c8Cash.key = "CASH" := rfl
  have hk2 : c8OBE.key = "OPENING_BALANCE_EQUITY" := rfl
  have hc1 : c8Cash.code = "1000" := rfl
  have hc2 : c8OBE.code = "3999" := rfl
  have ha1 : c8Cash.isActive = true := rfl
  have ha2 : c8OBE.isActive = true := rfl
  have ht1 : c8Cash.ty = AccountType.asset := rfl
  have hp1 : c8Cash.parentGroup = ParentGroup.asset := rfl
  have hn1 : c8Cash.name = "Cash" := rfl
  have hdk : DEFAULT_OPENING_BALANCE_ACCOUNT.key = "OPENING_BALANCE_EQUITY" := rfl
  have happ : "Opening balance for " ++ "Cash" = "Opening balance for Cash" := rfl
  have hfindC : List.find? (fun a => decide (a.key = "CASH")) [c8Cash, c8OBE]
      = some c8Cash := by decide
  have hfindO : List.find? (fun a => decide (a.key = "OPENING_BALANCE_EQUITY")) [c8Cash, c8OBE]
      = some c8OBE := by decide
  have hdedup : (["CASH", "OPENING_BALANCE_EQUITY"] : List String).dedup
      = ["CASH", "OPENING_BALANCE_EQUITY"] := by decide
  have hmapC : List.foldl (fun acc a => if a.key = "CASH" then some a else acc) none
      [c8Cash, c8OBE] = some c8Cash := by decide
  have hmapO : List.foldl (fun acc a => if a.key = "OPENING_BALANCE_EQUITY" then some a else acc)
      none [c8Cash, c8OBE] = some c8OBE := by decide
  refine ⟨?_, by decide, ?_, ?_, ?_⟩
  · norm_num [applyOpeningBalance, voidExistingOpeningBalance, voidJournal, voidJournalUpd,
      ensureOpeningBalanceOffsetAccount, postJournal, processLines, strTruthy,
      OPENING_BALANCE_REFERENCE_TYPE, c8In, c8DB, jround, lineDebit, lineCredit,
      isDebitNormal, hk1, hk2, hc1, hc2, ha1, ha2, ht1, hp1, hn1, hdk, happ, hfindC, hfindO,
      hdedup, hmapC, hmapO, findAccount, findAccountMap,
      List.find?_cons_of_pos, List.find?_cons_of_neg, List.find?_nil, List.foldl_cons,
      List.foldl_nil, List.enum, Except.map, Option.isNone, List.isEmpty, List.contains,
      List.any, List.filter_cons]
    simp [hk1, hk2, hc1, hc2, ha1, ha2, ht1, hp1, hn1, happ, c8DBAfter, c8PR, c8Cash, c8OBE,
      DEFAULT_OPENING_BALANCE_ACCOUNT]
  · simp [getAccountBalance, entryMatches, getNetBalance, isDebitNormal, findAccount,
      c8DBAfter, hk1, ht1, hp1, hfindC, List.find?_cons_of_pos, List.find?_cons_of_neg,
      List.filter_cons, List.filter_nil]
    try norm_num [jround]
  · norm_num [applyOpeningBalance, voidExistingOpeningBalance, voidJournal, voidJournalUpd,
      strTruthy, OPENING_BALANCE_REFERENCE_TYPE, c8InZero, c8DB, jround, ha1, hfindC,
      findAccount, Except.map, List.find?_cons_of_pos, List.find?_cons_of_neg,
      List.filter_cons]
  · norm_num [applyOpeningBalance, voidExistingOpeningBalance, voidJournal, voidJournalUpd,
      strTruthy, OPENING_BALANCE_REFERENCE_TYPE, c8InZero, c8DB, jround, ha1, hfindC,
      findAccount, Except.map, List.find?_cons_of_pos, List.find?_cons_of_neg,
      List.filter_cons]

end AccEngine
